import Mathlib

/-!
Verification of the SmartCRM contact/email store.

This development shallowly embeds the data-access layer of the repository:
the raw-SQL `DataBase` wrapper (`src/postgres_utils.py`), the ORM-backed
`ContactService` and `EmailService` (`src/backend/app/services/`), and the
Flask delete route (`src/api.py`).  Tables become lists of rows, SQL
statements become list operations, committed transactions become returned
states and raised exceptions become `Except.error` results (an exception
before `commit` leaves the persisted state unchanged, which the `Except`
shape encodes directly).  DATE columns are abstracted as `Nat` ordinals;
the SQL comparison `last_contacted < date` becomes `<` on `Nat`.
-/

namespace SmartCRM

/-- The single-quote character, written via its code point. -/
def sq : Char := Char.ofNat 39

/-- Singleton string holding a single quote. -/
def sqs : String := String.singleton sq

/-- Python's `s.replace("'", "''")` on a character list: every single quote
is doubled.  Used by `DataBase.add_email` / `update_emails_for_contact`. -/
def escChars : List Char → List Char
  | [] => []
  | c :: r => if c = sq then c :: c :: escChars r else c :: escChars r

/-- `content.replace("'", "''")` from `src/postgres_utils.py`. -/
def escapeQuotes (s : String) : String := ⟨escChars s.data⟩

/-- Lower-case a character list (SQL `lower` / Python `str.lower`). -/
def lowerChars (l : List Char) : List Char := l.map Char.toLower

/-- Lower-case a string. -/
def strLower (s : String) : String := ⟨lowerChars s.data⟩

/-- Does the pattern-free character list `n` occur at the head of `h`? -/
def isPrefixChars : List Char → List Char → Bool
  | [], _ => true
  | _ :: _, [] => false
  | a :: n, b :: h => (a = b) && isPrefixChars n h

/-- Plain (case-sensitive) substring test on character lists; model of
Python's `needle in haystack`. -/
def isSubChars (n : List Char) : List Char → Bool
  | [] => n.isEmpty
  | c :: t => isPrefixChars n (c :: t) || isSubChars n t

/-- Python's `needle in haystack` on strings (case-sensitive substring). -/
def containsSubStr (needle hay : String) : Bool :=
  isSubChars needle.data hay.data

/-- Case-insensitive substring test; this is the relation the specification
calls a "case-insensitive substring match". -/
def containsSubCI (needle hay : String) : Bool :=
  isSubChars (lowerChars needle.data) (lowerChars hay.data)

/-- SQL `LIKE` pattern matching over character lists: `%` matches any
(possibly empty) sequence, `_` matches exactly one character, anything else
matches itself.  Structural recursion on the pattern: a `%` consumes an
arbitrary suffix of the text via `List.tails`. -/
def likeMatch : List Char → List Char → Bool
  | [], t => t.isEmpty
  | c :: p, t =>
    if c = '%' then (t.tails).any fun s => likeMatch p s
    else
      match t with
      | [] => false
      | d :: t2 => (if c = '_' then true else c = d) && likeMatch p t2

/-- SQL `ILIKE`: case-insensitive `LIKE` (both sides lower-cased). -/
def ilike (pattern s : String) : Bool :=
  likeMatch (lowerChars pattern.data) (lowerChars s.data)

/-- The pattern `f"%{x}%"` built by the service-layer filters. -/
def pctPat (x : String) : String := "%" ++ x ++ "%"

/-- Row of the `contact_methods` table (`src/backend/app/models/contact_method.py`
and the raw schema): owning contact id, method type, value, primary flag. -/
structure ContactMethod where
  contact_id : Nat
  method_type : String
  value : String
  is_primary : Bool
deriving Repr, DecidableEq

/-- Row of the `contacts` table (`src/backend/app/models/contact.py` and the
raw schema).  Dates are `Nat` ordinals, nullable columns are `Option`. -/
structure Contact where
  id : Nat
  name : String
  company : Option String
  last_contacted : Option Nat
  follow_up_date : Option Nat
  warm : Bool
  reminder : Bool
  notes : Option String
  position : Option String
deriving Repr, DecidableEq

/-- Row of the `emails` table as used by the raw-SQL layer
(`src/postgres_utils.py`): `(id, date, summary, content)`, the column order
returned by its queries. -/
structure Email where
  id : Nat
  date : Nat
  summary : String
  content : String
deriving Repr, DecidableEq

/-- State of the raw-SQL store (`class DataBase` in `src/postgres_utils.py`):
the four tables plus the next values of the two id sequences.
`contact_emails` rows are `(contact_id, email_id)` pairs. -/
structure DataBase where
  contacts : List Contact
  contact_methods : List ContactMethod
  emails : List Email
  contact_emails : List (Nat × Nat)
  next_contact_id : Nat
  next_email_id : Nat
deriving Repr, DecidableEq

/-- Referential integrity enforced by the schema's foreign keys: every
contact-method row references an existing contact. -/
def WF (db : DataBase) : Prop :=
  ∀ m ∈ db.contact_methods, ∃ c ∈ db.contacts, c.id = m.contact_id

instance (db : DataBase) : Decidable (WF db) := by
  unfold WF; infer_instance

/-- Lines 45-66 and 304-325 of `src/postgres_utils.py` (the identical
dedup-or-insert block of `add_email` and `update_emails_for_contact`):
look up an `emails` row whose `content` equals the (already escaped)
supplied content; if found reuse its id, otherwise insert a fresh row
(`RETURNING id` yields the next sequence value).  Arguments take the
escaped `content`/`summary`. -/
def findOrInsertEmail (db : DataBase) (date : Nat) (summary content : String) :
    DataBase × Nat :=
  match db.emails.find? fun e => e.content = content with
  | some e => (db, e.id)
  | none =>
      ({ db with
          emails := db.emails ++ [⟨db.next_email_id, date, summary, content⟩],
          next_email_id := db.next_email_id + 1 },
        db.next_email_id)

/-- Lines 68-80 of `src/postgres_utils.py`: `SELECT DISTINCT c.id FROM
contacts c JOIN contact_methods cm ON c.id = cm.contact_id WHERE cm.value
IN (...)` — the ids of contacts owning a method whose value occurs in the
supplied list.  (The Python builds the `IN` list by doubling quotes inside
SQL string literals, which the database un-escapes again, so the comparison
is against the raw entries.) -/
def resolveContactIds (db : DataBase) (contacts : List String) : List Nat :=
  (db.contacts.filter fun c =>
    db.contact_methods.any fun m =>
      m.contact_id = c.id && contacts.contains m.value).map fun c => c.id

/-- Clamp of the SQL `UPDATE contacts SET last_contacted = %s WHERE id = %s
AND (last_contacted IS NULL OR last_contacted < %s)` applied to one row. -/
def bumpLastContacted (lc : Option Nat) (d : Nat) : Option Nat :=
  match lc with
  | none => some d
  | some o => if o < d then some d else some o

/-- One iteration of the link loop shared by `add_email` (lines 83-102) and
`update_emails_for_contact` (lines 327-346): insert the
`(contact_id, email_id)` join row unless it already exists (`ON CONFLICT DO
NOTHING`), then run the conditional `last_contacted` update for that
contact id. -/
def linkContact (date email_id : Nat) (db : DataBase) (cid : Nat) : DataBase :=
  let db1 :=
    if db.contact_emails.contains (cid, email_id) then db
    else { db with contact_emails := db.contact_emails ++ [(cid, email_id)] }
  { db1 with
      contacts := db1.contacts.map fun c =>
        if c.id = cid then
          { c with last_contacted := bumpLastContacted c.last_contacted date }
        else c }

/-- `DataBase.add_email` (`src/postgres_utils.py` lines 30-105).  Escapes
quotes in `content`/`summary`, reuses or inserts the email row, resolves the
`contacts` entries to contact ids by contact-method value and links each.
When `contacts` is empty the generated `IN ()` clause is a SQL syntax error:
the call raises and nothing is committed, modelled as `Except.error` with
the original state discarded. -/
def DataBase.add_email (db : DataBase) (contacts : List String) (date : Nat)
    (content summary : String) : Except String (DataBase × Nat) :=
  let fi := findOrInsertEmail db date (escapeQuotes summary) (escapeQuotes content)
  if contacts.isEmpty then
    .error "syntax error at or near the empty IN list"
  else
    .ok ((resolveContactIds fi.1 contacts).foldl (linkContact date fi.2) fi.1, fi.2)

/-- `DataBase.update_emails_for_contact` (`src/postgres_utils.py` lines
290-348): same dedup-or-insert block, then a single link step for the given
contact id.  Always commits; returns the new state. -/
def DataBase.update_emails_for_contact (db : DataBase) (contact_id : Nat)
    (date : Nat) (content summary : String) : DataBase :=
  let fi := findOrInsertEmail db date (escapeQuotes summary) (escapeQuotes content)
  linkContact date fi.2 fi.1 contact_id

/-- Contact-method dict supplied to contact creation:
`{type: str, value: str, is_primary: bool}` (`is_primary` defaulting to
`False` is folded into the field). -/
structure MethodSpec where
  type : String
  value : String
  is_primary : Bool
deriving Repr, DecidableEq

/-- The `== "nan"` scrubbing at the top of `DataBase.add_contact`. -/
def nanToNone (s : Option String) : Option String :=
  match s with
  | some t => if t = "nan" then none else some t
  | none => none

/-- The duplicate-method probe of `DataBase.add_contact` (lines 196-206):
`SELECT c.name, c.company, cm.method_type, cm.value FROM contact_methods cm
JOIN contacts c ON c.id = cm.contact_id WHERE cm.value = %s`, first row.
Returns the offending method row together with its owning contact. -/
def findOwnerRow (db : DataBase) (v : String) : Option (ContactMethod × Contact) :=
  db.contact_methods.findSome? fun row =>
    if row.value = v then
      (db.contacts.find? fun c => c.id = row.contact_id).map fun c => (row, c)
    else none

/-- The `ValueError` message raised by `DataBase.add_contact` (lines
207-212): identifies the offending value, its stored type, and the existing
owner's name and (when present and non-empty) company. -/
def duplicateMethodError (value mtype oname : String) (ocompany : Option String) :
    String :=
  let company_str :=
    match ocompany with
    | some comp => if comp ≠ "" then " at " ++ comp else ""
    | none => ""
  "Contact method " ++ sqs ++ value ++ sqs ++ " (" ++ mtype ++
    ") is already used by contact " ++ sqs ++ oname ++ sqs ++ company_str

/-- `DataBase.add_contact` (`src/postgres_utils.py` lines 165-255): scrub
`"nan"` sentinels, check every supplied method value for a collision
anywhere in `contact_methods` (raising before any insert on the first hit),
then insert the contact row followed by all its method rows and commit.
The date parameters are already `Nat` ordinals here, so the string `"nan"`
scrub on them is vacuous and omitted. -/
def DataBase.add_contact (db : DataBase) (name : String)
    (contact_methods : List MethodSpec) (company : Option String)
    (last_contacted follow_up_date : Option Nat) (warm reminder : Bool)
    (notes position : Option String) : Except String DataBase :=
  let company := nanToNone company
  let notes := nanToNone notes
  let position := nanToNone position
  match contact_methods.findSome? fun m =>
      (findOwnerRow db m.value).map fun rc => (m, rc) with
  | some (_, row, owner) =>
      .error (duplicateMethodError row.value row.method_type owner.name owner.company)
  | none =>
      let cid := db.next_contact_id
      .ok { db with
        contacts := db.contacts ++
          [⟨cid, name, company, last_contacted, follow_up_date, warm, reminder,
            notes, position⟩],
        contact_methods := db.contact_methods ++
          contact_methods.map fun m => ⟨cid, m.type, m.value, m.is_primary⟩,
        next_contact_id := cid + 1 }

/-- The candidate filter of `DataBase.delete_contact` (lines 424-448):
contacts with the given name, further restricted to an exact company match
and/or the existence of a method row with the exact `contact_info` value
when those filters are supplied.  (`c.company = %s` is SQL equality, so a
NULL company never matches a supplied filter.) -/
def deleteMatches (db : DataBase) (name : String)
    (contact_info company : Option String) : List Contact :=
  db.contacts.filter fun c =>
    c.name = name &&
    (match company with
     | none => true
     | some co => c.company = some co) &&
    (match contact_info with
     | none => true
     | some ci => db.contact_methods.any fun m =>
         m.contact_id = c.id && m.value = ci)

/-- The not-found message of `delete_contact` (lines 450-456); the suffixes
are appended under Python truthiness, so empty-string filters add nothing. -/
def deleteNotFoundMsg (contact_info company : Option String) : String :=
  let m1 := "Contact not found"
  let m2 :=
    match company with
    | some co => if co ≠ "" then m1 ++ " at company " ++ sqs ++ co ++ sqs else m1
    | none => m1
  match contact_info with
  | some ci => if ci ≠ "" then m2 ++ " with contact info " ++ sqs ++ ci ++ sqs else m2
  | none => m2

/-- One candidate line of the ambiguity message (lines 458-466): the
truthy-guarded ` at {company}` prefix and the aggregated `type: value`
method list of the candidate (the `array_agg` over the LEFT JOIN yields
`[None]`, i.e. the empty list, for a method-less contact). -/
def deleteCandidateDetail (db : DataBase) (c : Contact) : String :=
  let company_str :=
    match c.company with
    | some co => if co ≠ "" then " at " ++ co else ""
    | none => ""
  let methods := db.contact_methods.filter fun m => m.contact_id = c.id
  let methods_str :=
    String.intercalate ", " (methods.map fun m => m.method_type ++ ": " ++ m.value)
  company_str ++ " (" ++ methods_str ++ ")"

/-- The full ambiguity message of `delete_contact` (line 468). -/
def deleteAmbiguousMsg (db : DataBase) (name : String) (cands : List Contact) :
    String :=
  "Multiple contacts found with name " ++ sqs ++ name ++ sqs ++
    ". Please provide additional information to identify the correct contact: " ++
    String.intercalate "; " (cands.map (deleteCandidateDetail db))

/-- `DataBase.delete_contact` (`src/postgres_utils.py` lines 407-485):
three-way outcome on the filtered candidates.  Zero matches or several
matches leave the store untouched and return `(False, message)`; a unique
match deletes its join rows, its method rows and the contact row and
returns `(True, None)`.  Result is `(new state, success, error message)`. -/
def DataBase.delete_contact (db : DataBase) (name : String)
    (contact_info company : Option String) : DataBase × Bool × Option String :=
  let cands := deleteMatches db name contact_info company
  match cands with
  | [] => (db, false, some (deleteNotFoundMsg contact_info company))
  | [c] =>
      ({ db with
          contact_emails := db.contact_emails.filter fun p => p.1 ≠ c.id,
          contact_methods := db.contact_methods.filter fun m => m.contact_id ≠ c.id,
          contacts := db.contacts.filter fun x => x.id ≠ c.id },
        true, none)
  | _ => (db, false, some (deleteAmbiguousMsg db name cands))

/-- The HTTP status chosen by the `DELETE /contacts/<name>` route
(`src/api.py` lines 243-252): 200 on success, otherwise 409 when the error
message contains the text `Multiple contacts found`, 404 otherwise. -/
def apiDeleteStatus (success : Bool) (msg : Option String) : Nat :=
  if success then 200
  else
    match msg with
    | some m => if containsSubStr "Multiple contacts found" m then 409 else 404
    | none => 404

/-- Descending insertion by date (model of `ORDER BY e.date DESC`). -/
def insertByDateDesc (e : Email) : List Email → List Email
  | [] => [e]
  | x :: t => if x.date < e.date then e :: x :: t else x :: insertByDateDesc e t

/-- Sort emails by date, newest first. -/
def sortByDateDesc : List Email → List Email
  | [] => []
  | x :: t => insertByDateDesc x (sortByDateDesc t)

/-- The rows aggregated per email by `fetch_emails_with_contacts`
(`src/postgres_utils.py` lines 374-397): one `(c.name, cm.value)` pair for
every join combination of a `contact_emails` row of the email, its contact,
and an email-typed method row of that contact. -/
def emailPairs (db : DataBase) (e : Email) : List (String × String) :=
  (db.contact_emails.filter fun ce => ce.2 = e.id).flatMap fun ce =>
    (db.contacts.filter fun c => c.id = ce.1).flatMap fun c =>
      (db.contact_methods.filter fun m =>
          m.contact_id = c.id && m.method_type = "email").map fun m =>
        (c.name, m.value)

/-- `DataBase.fetch_emails_with_contacts` (`src/postgres_utils.py` lines
350-405).  With a non-empty filter only emails linked to a contact whose
name is in the list are selected (the filter CTE; names are spliced into
the SQL unescaped, so this models quote-free names).  Each selected email
is paired with its aggregated `(name, value)` rows; the inner joins drop
emails with no email-typed method on any linked contact; rows come back
ordered by date descending. -/
def DataBase.fetch_emails_with_contacts (db : DataBase)
    (contacts : List String) : List (Email × List (String × String)) :=
  let selected :=
    if contacts.isEmpty then db.emails
    else
      db.emails.filter fun e =>
        db.contact_emails.any fun ce =>
          ce.2 = e.id && db.contacts.any fun c =>
            c.id = ce.1 && contacts.contains c.name
  ((sortByDateDesc selected).filter fun e => !(emailPairs db e).isEmpty).map
    fun e => (e, emailPairs db e)

/-- Request payload of `ContactService.create_contact`
(`src/backend/app/services/contact_service.py`).  The dict-shape
validations (`name` present, methods are dicts with `type` and `value`) are
discharged by the typed fields; `warm`/`reminder` carry the `.get`
defaults already applied. -/
structure ContactData where
  name : String
  contact_methods : List MethodSpec
  company : Option String
  position : Option String
  notes : Option String
  last_contacted : Option Nat
  follow_up_date : Option Nat
  warm : Bool
  reminder : Bool
deriving Repr, DecidableEq

/-- `ContactService.create_contact` (`contact_service.py` lines 85-152):
requires at least one contact method; rejects a method exactly when an
existing `contact_methods` row has the same `method_type` AND `value`
(`filter_by(method_type=..., value=...)`), with a message naming only the
type and value; otherwise inserts the contact and all its methods. -/
def ContactService.create_contact (db : DataBase) (cd : ContactData) :
    Except String DataBase :=
  if cd.contact_methods.isEmpty then
    .error "At least one contact method is required"
  else
    match cd.contact_methods.find? fun m =>
        db.contact_methods.any fun row =>
          row.method_type = m.type && row.value = m.value with
    | some m =>
        .error ("Contact method " ++ m.type ++ ":" ++ m.value ++
          " is already associated with another contact")
    | none =>
        let cid := db.next_contact_id
        .ok { db with
          contacts := db.contacts ++
            [⟨cid, cd.name, cd.company, cd.last_contacted, cd.follow_up_date,
              cd.warm, cd.reminder, cd.notes, cd.position⟩],
          contact_methods := db.contact_methods ++
            cd.contact_methods.map fun m => ⟨cid, m.type, m.value, m.is_primary⟩,
          next_contact_id := cid + 1 }

/-- The `name` stage of `ContactService.get_contacts` (`contact_service.py`
lines 30-31): applied under Python truthiness (an empty string behaves like
an absent filter), an `ILIKE %x%` pattern on the contact name. -/
def filterByName (name : Option String) (l : List Contact) : List Contact :=
  match name with
  | some n =>
      if n ≠ "" then l.filter fun c => ilike (pctPat n) c.name else l
  | none => l

/-- The `company` stage of the same query (`if company: ... ilike`). -/
def filterByCompany (company : Option String) (l : List Contact) : List Contact :=
  match company with
  | some co =>
      if co ≠ "" then
        l.filter fun c =>
          match c.company with
          | some s => ilike (pctPat co) s
          | none => false
      else l
  | none => l

/-- The `email` stage: join to `contact_methods` restricted to
`method_type = "email"` with an `ILIKE` on the value (the legacy ORM query
de-duplicates entity rows, so a contact is kept once if any of its methods
matches). -/
def filterByEmail (db : DataBase) (email : Option String) (l : List Contact) :
    List Contact :=
  match email with
  | some em =>
      if em ≠ "" then
        l.filter fun c =>
          db.contact_methods.any fun m =>
            m.contact_id = c.id && m.method_type = "email" &&
              ilike (pctPat em) m.value
      else l
  | none => l

/-- `ContactService.get_contacts` (`contact_service.py` lines 13-40): the
three optional filter stages applied in source order (name, company,
email), starting from all contacts. -/
def ContactService.get_contacts (db : DataBase)
    (name email company : Option String) : List Contact :=
  filterByEmail db email (filterByCompany company (filterByName name db.contacts))

/-- `ContactService.get_contact_by_email` (`contact_service.py` lines
42-56): first contact joined to an email-typed method row whose value
equals the argument exactly. -/
def ContactService.get_contact_by_email (db : DataBase) (email : String) :
    Option Contact :=
  db.contacts.find? fun c =>
    db.contact_methods.any fun m =>
      m.contact_id = c.id && m.method_type = "email" && m.value = email

/-- One email dict produced by `EmailService.fetch_emails`
(`src/backend/app/services/email_service.py` lines 190-203); only the
fields read back by `save_emails_to_db`.  `date` is the raw `Date` header
(`None` when the header is missing). -/
structure GmailEmail where
  subject : String
  from_header : String
  from_email : String
  to_emails : List String
  cc_emails : List String
  date : Option String
  content : String
  message_id : Option String
deriving Repr, DecidableEq

/-- Row of the ORM `emails` table (`src/backend/app/models/email.py`). -/
structure OrmEmail where
  id : Nat
  message_id : Option String
  date : Nat
  subject : String
  summary : String
  content : String
  sender_id : Option Nat
deriving Repr, DecidableEq

/-- State of the ORM-backed store used by `EmailService`; `email_contacts`
rows are `(email_id, contact_id)` pairs of the `email.contacts`
relationship. -/
structure OrmDB where
  contacts : List Contact
  contact_methods : List ContactMethod
  emails : List OrmEmail
  email_contacts : List (Nat × Nat)
  next_contact_id : Nat
  next_email_id : Nat
deriving Repr, DecidableEq

/-- The counters `save_emails_to_db` initializes at lines 273-275. -/
structure SaveCounts where
  successful_saves : Nat
  skipped_saves : Nat
  failed_saves : Nat
deriving Repr, DecidableEq

/-- The one exception that can escape `save_emails_to_db`: referencing a
local variable before assignment (Python's `UnboundLocalError`, a
`NameError`). -/
inductive PyErr where
  | unboundLocal (name : String)
deriving Repr, DecidableEq

/-- The contact lookup repeated at lines 326-334, 340-349 and 382-390 of
`email_service.py`: first contact joined to an email-typed method whose
lower-cased value equals the (already lower-cased) address. -/
def lookupContactByEmailCI (db : OrmDB) (addr : String) : Option Contact :=
  db.contacts.find? fun c =>
    db.contact_methods.any fun m =>
      m.contact_id = c.id && m.method_type = "email" && strLower m.value = addr

/-- `from_name` extraction for the auto-created user contact (lines
395-401): the part of the `From` header before `<`, stripped, with `User`
as the fallback for a missing bracket or an empty result. -/
def extractFromName (from_header : String) : String :=
  if from_header.data.contains '<' then
    let s := (⟨from_header.data.takeWhile fun c => c ≠ '<'⟩ : String).trim
    if s = "" then "User" else s
  else "User"

/-- `if not email_data.get("date")` (line 278): missing or empty header. -/
def dateFalsy (e : GmailEmail) : Bool :=
  match e.date with
  | none => true
  | some d => d = ""

/-- The duplicate check by message id (lines 285-296), under Python
truthiness of `message_id`. -/
def isDupMessage (db : OrmDB) (e : GmailEmail) : Bool :=
  match e.message_id with
  | some mid => mid ≠ "" && db.emails.any fun em => em.message_id = some mid
  | none => false

/-- The sender lookup guard (lines 321-337): only a non-empty from address
that is not one of the configured (non-empty, lower-cased) user emails is
looked up. -/
def senderLookup (user_emails : List String) (db : OrmDB) (from_email : String) :
    Option Contact :=
  if from_email ≠ "" &&
      !(((user_emails.filter fun u => u ≠ "").map strLower).contains from_email)
  then lookupContactByEmailCI db from_email
  else none

/-- The success path of the loop body (lines 363-428): build the email row,
pick the resolved sender or find-or-create the user contact, and link the
sender plus the de-duplicated recipients. -/
def saveOneEmail (db : OrmDB) (e : GmailEmail) (d : Nat)
    (sender_contact : Option Contact) (from_email : String)
    (recipient_contacts : List Contact) : OrmDB :=
  let senderPick : OrmDB × Contact :=
    match sender_contact with
    | some c => (db, c)
    | none =>
        match lookupContactByEmailCI db from_email with
        | some uc => (db, uc)
        | none =>
            let uc : Contact :=
              ⟨db.next_contact_id, extractFromName e.from_header, none,
                none, none, false, true,
                some "Automatically created for user email", none⟩
            ({ db with
                contacts := db.contacts ++ [uc],
                contact_methods := db.contact_methods ++
                  [⟨uc.id, "email", from_email, true⟩],
                next_contact_id := db.next_contact_id + 1 },
              uc)
  let db1 := senderPick.1
  let senderC := senderPick.2
  let eid := db1.next_email_id
  let linked := recipient_contacts.foldl
    (fun acc c => if acc.contains c.id then acc else acc ++ [c.id])
    [senderC.id]
  { db1 with
      emails := db1.emails ++
        [⟨eid, e.message_id, d, e.subject, "", e.content, some senderC.id⟩],
      email_contacts := db1.email_contacts ++ linked.map fun cid => (eid, cid),
      next_email_id := eid + 1 }

/-- The loop body of `EmailService.save_emails_to_db` (lines 277-433) for a
single email dict.  The running state is the uncommitted session
`(store, counts, filtered_out)` where `filtered_out` stays `none` because
that local is never initialized; the `filtered_out += 1` at line 360
therefore raises `UnboundLocalError` (not caught by the `except
(ValueError, KeyError)` handler).  `parseDate` abstracts
`datetime.strptime(_, "%a, %d %b %Y %H:%M:%S %z").date()`, whose
`ValueError` is the caught failure path. -/
def EmailService.processEmail (user_emails : List String)
    (parseDate : String → Option Nat)
    (st : OrmDB × SaveCounts × Option Nat) (e : GmailEmail) :
    Except PyErr (OrmDB × SaveCounts × Option Nat) :=
  if dateFalsy e then .ok st
  else if isDupMessage st.1 e then
    .ok (st.1, { st.2.1 with skipped_saves := st.2.1.skipped_saves + 1 }, st.2.2)
  else
    let from_email := strLower e.from_email
    let all_recipients := e.to_emails.map strLower ++ e.cc_emails.map strLower
    let sender_contact := senderLookup user_emails st.1 from_email
    let recipient_contacts := all_recipients.filterMap (lookupContactByEmailCI st.1)
    if !(sender_contact.isSome || !recipient_contacts.isEmpty) then
      match st.2.2 with
      | none => .error (.unboundLocal "filtered_out")
      | some n => .ok (st.1, st.2.1, some (n + 1))
    else
      match parseDate (e.date.getD "") with
      | none =>
          .ok (st.1, { st.2.1 with failed_saves := st.2.1.failed_saves + 1 },
            st.2.2)
      | some d =>
          .ok (saveOneEmail st.1 e d sender_contact from_email recipient_contacts,
            { st.2.1 with successful_saves := st.2.1.successful_saves + 1 },
            st.2.2)

/-- `EmailService.save_emails_to_db` (lines 259-449): fold the loop body
over the batch starting from zeroed counters and the uninitialized
`filtered_out`, committing (returning the new store and the counts dict)
only if no exception escaped. -/
def EmailService.save_emails_to_db (user_emails : List String)
    (parseDate : String → Option Nat) (db : OrmDB) (emails : List GmailEmail) :
    Except PyErr (OrmDB × SaveCounts) :=
  (emails.foldlM (EmailService.processEmail user_emails parseDate)
      ((db, ⟨0, 0, 0⟩, none) : OrmDB × SaveCounts × Option Nat)).map
    fun st => (st.1, st.2.1)

/-- What the database holds after the call: the committed store and the
returned counts on success, the original store and no counts when the
exception aborts the batch before `db.session.commit()`. -/
def EmailService.committedState (db : OrmDB)
    (r : Except PyErr (OrmDB × SaveCounts)) : OrmDB × Option SaveCounts :=
  match r with
  | .ok (db1, c) => (db1, some c)
  | .error _ => (db, none)

/-- Modelled from the spec (section 4.2 step 4, the wording claim C5 is
drawn from): resolve an email-creation entry "by matching against contact
name or any contact-method value".  Used only to compare the specified
resolution with the one `DataBase.add_email` implements. -/
def specResolveIds (db : DataBase) (entry : String) : List Nat :=
  (db.contacts.filter fun c =>
    c.name = entry ||
      db.contact_methods.any fun m =>
        m.contact_id = c.id && m.value = entry).map fun c => c.id

/-- Modelled from the spec (section 4.1 `getByFilter`): each supplied
filter as an independent case-insensitive substring match, combined with
AND, absent filters true; the email filter only against email-typed method
rows.  Used only to compare the specified filter semantics with the
`ILIKE` patterns `ContactService.get_contacts` implements. -/
def specContactMatches (db : DataBase) (name email company : Option String)
    (c : Contact) : Bool :=
  (match name with
   | none => true
   | some s => containsSubCI s c.name) &&
  (match company with
   | none => true
   | some s =>
       match c.company with
       | some v => containsSubCI s v
       | none => false) &&
  (match email with
   | none => true
   | some s =>
       db.contact_methods.any fun m =>
         m.contact_id = c.id && m.method_type = "email" && containsSubCI s m.value)

/-! ## Helper lemmas -/

theorem findOwnerRow_eq_some {db : DataBase} {v : String} {row : ContactMethod}
    {owner : Contact} (h : findOwnerRow db v = some (row, owner)) :
    row ∈ db.contact_methods ∧ row.value = v ∧ owner ∈ db.contacts ∧
      owner.id = row.contact_id := by
  unfold findOwnerRow at h
  obtain ⟨r, hr, hfr⟩ := List.exists_of_findSome?_eq_some h
  by_cases hv : r.value = v
  · simp only [hv, if_pos rfl, Option.map_eq_some', if_true] at hfr
    obtain ⟨c, hc, heq⟩ := hfr
    obtain ⟨h1, h2⟩ := Prod.mk.injEq .. ▸ heq
    subst h1; subst h2
    have hcm := List.mem_of_find?_eq_some hc
    have hcp := List.find?_some hc
    simp only [decide_eq_true_eq] at hcp
    exact ⟨hr, hv, hcm, hcp⟩
  · simp [hv] at hfr

theorem findOwnerRow_exists {db : DataBase} {v : String} (hwf : WF db)
    {row : ContactMethod} (hrow : row ∈ db.contact_methods) (hv : row.value = v) :
    ∃ rc, findOwnerRow db v = some rc := by
  cases h : findOwnerRow db v with
  | some rc => exact ⟨rc, rfl⟩
  | none =>
    exfalso
    unfold findOwnerRow at h
    rw [List.findSome?_eq_none_iff] at h
    have hnone := h row hrow
    simp only [hv, if_pos rfl, Option.map_eq_none', if_true] at hnone
    rw [List.find?_eq_none] at hnone
    obtain ⟨c, hcmem, hcid⟩ := hwf row hrow
    exact hnone c hcmem (by simp [hcid])

theorem findOwnerRow_eq_none {db : DataBase} {v : String}
    (h : ∀ row ∈ db.contact_methods, row.value ≠ v) : findOwnerRow db v = none := by
  unfold findOwnerRow
  rw [List.findSome?_eq_none_iff]
  intro row hrow
  simp [h row hrow]

/-! ## Claim C1 -/

/-- Store fixture: one contact `Alice` at `Acme` owning the email method
value `alice@x.com`. -/
def c1_store : DataBase :=
  ⟨[⟨1, "Alice", some "Acme", none, none, false, true, none, none⟩],
    [⟨1, "email", "alice@x.com", true⟩], [], [], 2, 1⟩

/-- A create request supplying the already-used value under a different
method type (`phone`). -/
def c1_request : ContactData :=
  ⟨"Bob", [⟨"phone", "alice@x.com", false⟩], none, none, none, none, none,
    false, true⟩

/-- The same value under the same method type (`email`). -/
def c1_request_same_type : ContactData :=
  ⟨"Bob", [⟨"email", "alice@x.com", false⟩], none, none, none, none, none,
    false, true⟩

/-- Method rows of the store a create call returned (empty on error). -/
def contactMethodsAfter (r : Except String DataBase) : List ContactMethod :=
  match r with
  | .ok db => db.contact_methods
  | .error _ => []

/-- Error message of a create call, if any. -/
def errorMessageOf (r : Except String DataBase) : Option String :=
  match r with
  | .ok _ => none
  | .error msg => some msg

/-- Claim C1 (counterexample): `ContactService.create_contact` does NOT
fail on a supplied value that equals an existing `ContactMethod` value of a
different method type — the request succeeds and a second row with the
colliding value is persisted; and even for a same-type collision its error
message names only the type and value, not the existing owner's name and
company.  This refutes the claim for the backend create path. -/
theorem create_contact_cross_type_accepted :
    (∃ row ∈ c1_store.contact_methods, row.value = "alice@x.com") ∧
    (∃ m ∈ c1_request.contact_methods, m.value = "alice@x.com") ∧
    (ContactService.create_contact c1_store c1_request).isOk = true ∧
    (∃ m ∈ contactMethodsAfter (ContactService.create_contact c1_store c1_request),
      m.contact_id = 2 ∧ m.value = "alice@x.com") ∧
    errorMessageOf (ContactService.create_contact c1_store c1_request_same_type) =
      some "Contact method email:alice@x.com is already associated with another contact" := by
  decide

/-- Outcome of `DataBase.add_contact` on a value collision: the error names
some supplied value, its stored method type, and the existing owner's name
and company, and no state is committed. -/
def addContactDupOutcome (db : DataBase) (name : String) (ms : List MethodSpec)
    (company : Option String) (lc fu : Option Nat) (warm reminder : Bool)
    (notes position : Option String) : Prop :=
  ∃ m ∈ ms, ∃ row ∈ db.contact_methods, ∃ owner ∈ db.contacts,
    row.value = m.value ∧ owner.id = row.contact_id ∧
    db.add_contact name ms company lc fu warm reminder notes position =
      .error (duplicateMethodError row.value row.method_type owner.name owner.company)

/-- Outcome of `DataBase.add_contact` without a collision: the contact row
and every supplied method row are inserted in one committed state. -/
def addContactInserted (db : DataBase) (name : String) (ms : List MethodSpec)
    (company : Option String) (lc fu : Option Nat) (warm reminder : Bool)
    (notes position : Option String) : Prop :=
  db.add_contact name ms company lc fu warm reminder notes position =
    .ok { db with
      contacts := db.contacts ++
        [⟨db.next_contact_id, name, nanToNone company, lc, fu, warm, reminder,
          nanToNone notes, nanToNone position⟩],
      contact_methods := db.contact_methods ++
        ms.map fun m => ⟨db.next_contact_id, m.type, m.value, m.is_primary⟩,
      next_contact_id := db.next_contact_id + 1 }

/-- Outcome of `ContactService.create_contact` on a same-`(type, value)`
collision: error naming only the type and value of some offending method. -/
def createContactDupOutcome (db : DataBase) (cd : ContactData) : Prop :=
  ∃ m ∈ cd.contact_methods,
    (∃ row ∈ db.contact_methods, row.method_type = m.type ∧ row.value = m.value) ∧
    ContactService.create_contact db cd =
      .error ("Contact method " ++ m.type ++ ":" ++ m.value ++
        " is already associated with another contact")

/-- Outcome of `ContactService.create_contact` without a same-`(type,
value)` collision: contact and all methods inserted. -/
def createContactInserted (db : DataBase) (cd : ContactData) : Prop :=
  ContactService.create_contact db cd =
    .ok { db with
      contacts := db.contacts ++
        [⟨db.next_contact_id, cd.name, cd.company, cd.last_contacted,
          cd.follow_up_date, cd.warm, cd.reminder, cd.notes, cd.position⟩],
      contact_methods := db.contact_methods ++
        cd.contact_methods.map fun m => ⟨db.next_contact_id, m.type, m.value, m.is_primary⟩,
      next_contact_id := db.next_contact_id + 1 }

/-- Claim C1 (amended): in the raw-SQL layer, `DataBase.add_contact` fails
with the owner-identifying duplicate error exactly when any supplied value
collides with an existing `ContactMethod` value anywhere in the store,
regardless of method type, committing nothing; otherwise it inserts the
contact and all its methods.  `ContactService.create_contact`, by contrast,
rejects only a collision with the same `(method_type, value)` pair, with a
message naming only the type and value; absent such a pair (and given at
least one method) it inserts the contact and all its methods. -/
theorem add_contact_duplicate_value_semantics (db : DataBase) (name : String)
    (ms : List MethodSpec) (company : Option String) (lc fu : Option Nat)
    (warm reminder : Bool) (notes position : Option String) (cd : ContactData)
    (hwf : WF db) :
    ((∃ m ∈ ms, ∃ row ∈ db.contact_methods, row.value = m.value) →
      addContactDupOutcome db name ms company lc fu warm reminder notes position) ∧
    ((¬ ∃ m ∈ ms, ∃ row ∈ db.contact_methods, row.value = m.value) →
      addContactInserted db name ms company lc fu warm reminder notes position) ∧
    ((∃ m ∈ cd.contact_methods, ∃ row ∈ db.contact_methods,
        row.method_type = m.type ∧ row.value = m.value) →
      createContactDupOutcome db cd) ∧
    (cd.contact_methods ≠ [] →
      (¬ ∃ m ∈ cd.contact_methods, ∃ row ∈ db.contact_methods,
        row.method_type = m.type ∧ row.value = m.value) →
      createContactInserted db cd) := by
  refine ⟨?_, ?_, ?_, ?_⟩
  · rintro ⟨m0, hm0, row0, hrow0, hv0⟩
    unfold addContactDupOutcome DataBase.add_contact
    obtain ⟨⟨row1, owner1⟩, hfind⟩ := findOwnerRow_exists hwf hrow0 hv0
    cases hall : ms.findSome? fun m => (findOwnerRow db m.value).map fun rc => (m, rc) with
    | none =>
      exfalso
      rw [List.findSome?_eq_none_iff] at hall
      have := hall m0 hm0
      rw [hfind] at this
      simp at this
    | some mrc =>
      obtain ⟨m, hm, hfm⟩ := List.exists_of_findSome?_eq_some hall
      obtain ⟨rc, hrc, heq⟩ := Option.map_eq_some'.mp hfm
      obtain ⟨row, owner⟩ := rc
      obtain ⟨hmem, hval, homem, hoid⟩ := findOwnerRow_eq_some hrc
      refine ⟨m, hm, row, hmem, owner, homem, hval, hoid, ?_⟩
      subst heq
      simp [hall]
  · intro hno
    unfold addContactInserted DataBase.add_contact
    have hall : (ms.findSome? fun m => (findOwnerRow db m.value).map fun rc => (m, rc)) = none := by
      rw [List.findSome?_eq_none_iff]
      intro m hm
      rw [findOwnerRow_eq_none fun row hrow hv => hno ⟨m, hm, row, hrow, hv⟩]
      rfl
    simp [hall]
  · rintro ⟨m0, hm0, row0, hrow0, ht0, hv0⟩
    unfold createContactDupOutcome ContactService.create_contact
    have hne : cd.contact_methods.isEmpty = false := by
      cases h : cd.contact_methods with
      | nil => rw [h] at hm0; cases hm0
      | cons a l => simp [h]
    rw [hne]
    cases hfind : cd.contact_methods.find? fun m =>
        db.contact_methods.any fun row => row.method_type = m.type && row.value = m.value with
    | none =>
      exfalso
      rw [List.find?_eq_none] at hfind
      refine hfind m0 hm0 ?_
      rw [List.any_eq_true]
      exact ⟨row0, hrow0, by simp [ht0, hv0]⟩
    | some m =>
      have hmem := List.mem_of_find?_eq_some hfind
      have hp := List.find?_some hfind
      rw [List.any_eq_true] at hp
      obtain ⟨row, hrow, hpr⟩ := hp
      simp only [Bool.and_eq_true, decide_eq_true_eq] at hpr
      exact ⟨m, hmem, ⟨row, hrow, hpr.1, hpr.2⟩, by simp⟩
  · intro hne hno
    unfold createContactInserted ContactService.create_contact
    have hne2 : cd.contact_methods.isEmpty = false := by
      cases h : cd.contact_methods with
      | nil => exact absurd h hne
      | cons a l => simp [h]
    rw [hne2]
    have hfind : (cd.contact_methods.find? fun m =>
        db.contact_methods.any fun row => row.method_type = m.type && row.value = m.value) = none := by
      rw [List.find?_eq_none]
      intro m hm hp
      rw [List.any_eq_true] at hp
      obtain ⟨row, hrow, hpr⟩ := hp
      simp only [Bool.and_eq_true, decide_eq_true_eq] at hpr
      exact hno ⟨m, hm, row, hrow, hpr.1, hpr.2⟩
    simp [hfind]

/-- Claim C1 (witness): both duplicate outcomes realised on the fixture
store: the raw layer rejects the cross-type collision naming `Alice` at
`Acme`, and the backend layer inserts a contact under a same-type-free
collision check. -/
theorem add_contact_duplicate_value_semantics_witness :
    WF c1_store ∧
    addContactDupOutcome c1_store "Bob" [⟨"phone", "alice@x.com", false⟩]
      none none none false true none none ∧
    createContactDupOutcome c1_store c1_request_same_type := by
  have h := add_contact_duplicate_value_semantics c1_store "Bob"
    [⟨"phone", "alice@x.com", false⟩] none none none false true none none
    c1_request_same_type (by decide)
  exact ⟨by decide, h.1 (by decide), h.2.2.1 (by decide)⟩

/-! ## Lemmas about the link loop of `add_email` -/

theorem contains_iff_mem {α : Type} [BEq α] [LawfulBEq α] (l : List α) (a : α) :
    l.contains a = true ↔ a ∈ l := by
  unfold List.contains; exact List.elem_iff

theorem linkContact_emails (d e : Nat) (db : DataBase) (cid : Nat) :
    (linkContact d e db cid).emails = db.emails := by
  unfold linkContact; split <;> rfl

theorem linkContact_methods (d e : Nat) (db : DataBase) (cid : Nat) :
    (linkContact d e db cid).contact_methods = db.contact_methods := by
  unfold linkContact; split <;> rfl

theorem linkContact_contacts (d e : Nat) (db : DataBase) (cid : Nat) :
    (linkContact d e db cid).contacts = db.contacts.map fun c =>
      if c.id = cid then
        { c with last_contacted := bumpLastContacted c.last_contacted d }
      else c := by
  unfold linkContact; split <;> rfl

theorem linkContact_joins (d e : Nat) (db : DataBase) (cid : Nat) (x : Nat × Nat) :
    x ∈ (linkContact d e db cid).contact_emails ↔
      x ∈ db.contact_emails ∨ x = (cid, e) := by
  unfold linkContact
  by_cases h : db.contact_emails.contains (cid, e)
  · rw [if_pos h]
    have hm := (contains_iff_mem _ _).mp h
    constructor
    · exact fun hx => Or.inl hx
    · rintro (hx | hx)
      · exact hx
      · rw [hx]; exact hm
  · rw [if_neg h]
    simp only [List.mem_append, List.mem_singleton]

theorem foldl_linkContact_emails (d e : Nat) (ids : List Nat) (db : DataBase) :
    (ids.foldl (linkContact d e) db).emails = db.emails := by
  induction ids generalizing db with
  | nil => rfl
  | cons cid ids ih => rw [List.foldl_cons, ih, linkContact_emails]

theorem foldl_linkContact_methods (d e : Nat) (ids : List Nat) (db : DataBase) :
    (ids.foldl (linkContact d e) db).contact_methods = db.contact_methods := by
  induction ids generalizing db with
  | nil => rfl
  | cons cid ids ih => rw [List.foldl_cons, ih, linkContact_methods]

theorem foldl_linkContact_joins (d e : Nat) (ids : List Nat) (db : DataBase)
    (x : Nat × Nat) :
    x ∈ (ids.foldl (linkContact d e) db).contact_emails ↔
      x ∈ db.contact_emails ∨ ∃ cid ∈ ids, x = (cid, e) := by
  induction ids generalizing db with
  | nil => simp
  | cons cid ids ih =>
    rw [List.foldl_cons, ih, linkContact_joins]
    constructor
    · rintro ((hx | hx) | ⟨c, hc, hx⟩)
      · exact Or.inl hx
      · exact Or.inr ⟨cid, List.mem_cons_self .., hx⟩
      · exact Or.inr ⟨c, List.mem_cons_of_mem _ hc, hx⟩
    · rintro (hx | ⟨c, hc, hx⟩)
      · exact Or.inl (Or.inl hx)
      · rcases List.mem_cons.mp hc with hceq | hcmem
        · exact Or.inl (Or.inr (hceq ▸ hx))
        · exact Or.inr ⟨c, hcmem, hx⟩

/-- Bump `last_contacted` of a contact whose id occurs in the resolved id
list; leave other contacts untouched. -/
def bumpIfIn (ids : List Nat) (d : Nat) (c : Contact) : Contact :=
  if c.id ∈ ids then
    { c with last_contacted := bumpLastContacted c.last_contacted d }
  else c

theorem bumpLastContacted_idem (lc : Option Nat) (d : Nat) :
    bumpLastContacted (bumpLastContacted lc d) d = bumpLastContacted lc d := by
  unfold bumpLastContacted
  cases lc with
  | none => simp
  | some o =>
    by_cases h : o < d
    · simp [h]
    · simp [h]

theorem foldl_linkContact_contacts (d e : Nat) (ids : List Nat) (db : DataBase) :
    (ids.foldl (linkContact d e) db).contacts = db.contacts.map (bumpIfIn ids d) := by
  induction ids generalizing db with
  | nil =>
    have hid : bumpIfIn [] d = id := by
      funext c; simp [bumpIfIn]
    simp [hid]
  | cons cid ids ih =>
    rw [List.foldl_cons, ih, linkContact_contacts, List.map_map]
    apply List.map_congr_left
    intro c _
    unfold Function.comp bumpIfIn
    by_cases hc : c.id = cid
    · simp only [hc, if_pos rfl, List.mem_cons, true_or, if_true]
      by_cases hin : cid ∈ ids
      · simp [hin, bumpLastContacted_idem]
      · simp [hin]
    · simp only [hc, if_neg hc, List.mem_cons, false_or]
      by_cases hin : c.id ∈ ids
      · simp [hin, hc]
      · simp [hin, hc]

theorem mem_resolveContactIds (db : DataBase) (contacts : List String) (cid : Nat) :
    cid ∈ resolveContactIds db contacts ↔
      ∃ c ∈ db.contacts, c.id = cid ∧
        ∃ m ∈ db.contact_methods, m.contact_id = c.id ∧ m.value ∈ contacts := by
  unfold resolveContactIds
  rw [List.mem_map]
  constructor
  · rintro ⟨c, hc, rfl⟩
    rw [List.mem_filter] at hc
    obtain ⟨hcm, hp⟩ := hc
    rw [List.any_eq_true] at hp
    obtain ⟨m, hm, hpm⟩ := hp
    simp only [Bool.and_eq_true, decide_eq_true_eq] at hpm
    exact ⟨c, hcm, rfl, m, hm, hpm.1, (contains_iff_mem _ _).mp hpm.2⟩
  · rintro ⟨c, hc, rfl, m, hm, hmc, hmv⟩
    refine ⟨c, ?_, rfl⟩
    rw [List.mem_filter]
    refine ⟨hc, ?_⟩
    rw [List.any_eq_true]
    exact ⟨m, hm, by simp [hmc, hmv]⟩

theorem resolveContactIds_findOrInsert (db : DataBase) (d : Nat)
    (s c : String) (l : List String) :
    resolveContactIds (findOrInsertEmail db d s c).1 l = resolveContactIds db l := by
  unfold findOrInsertEmail
  cases db.emails.find? fun e => e.content = c <;> rfl

theorem findOrInsertEmail_joins (db : DataBase) (d : Nat) (s c : String) :
    (findOrInsertEmail db d s c).1.contact_emails = db.contact_emails := by
  unfold findOrInsertEmail
  cases db.emails.find? fun e => e.content = c <;> rfl

theorem findOrInsertEmail_contacts (db : DataBase) (d : Nat) (s c : String) :
    (findOrInsertEmail db d s c).1.contacts = db.contacts := by
  unfold findOrInsertEmail
  cases db.emails.find? fun e => e.content = c <;> rfl

theorem findOrInsertEmail_found {db : DataBase} {d : Nat} {s c : String}
    {e : Email} (h : db.emails.find? (fun x => x.content = c) = some e) :
    findOrInsertEmail db d s c = (db, e.id) := by
  unfold findOrInsertEmail; rw [h]

theorem findOrInsertEmail_not_found {db : DataBase} {d : Nat} {s c : String}
    (h : db.emails.find? (fun x => x.content = c) = none) :
    findOrInsertEmail db d s c =
      ({ db with
          emails := db.emails ++ [⟨db.next_email_id, d, s, c⟩],
          next_email_id := db.next_email_id + 1 },
        db.next_email_id) := by
  unfold findOrInsertEmail; rw [h]

theorem add_email_eq (db : DataBase) (contacts : List String) (d : Nat)
    (content summary : String) (hne : contacts ≠ []) :
    db.add_email contacts d content summary =
      .ok ((resolveContactIds
            (findOrInsertEmail db d (escapeQuotes summary) (escapeQuotes content)).1
            contacts).foldl
          (linkContact d
            (findOrInsertEmail db d (escapeQuotes summary) (escapeQuotes content)).2)
          (findOrInsertEmail db d (escapeQuotes summary) (escapeQuotes content)).1,
        (findOrInsertEmail db d (escapeQuotes summary) (escapeQuotes content)).2) := by
  have hie : contacts.isEmpty = false := by
    cases contacts with
    | nil => exact absurd rfl hne
    | cons a l => rfl
  unfold DataBase.add_email
  rw [hie]
  rfl

theorem add_email_nonempty_of_ok {db : DataBase} {contacts : List String}
    {d : Nat} {content summary : String} {r : DataBase × Nat}
    (h : db.add_email contacts d content summary = .ok r) : contacts ≠ [] := by
  intro hc
  subst hc
  unfold DataBase.add_email at h
  simp at h

/-! ## Claim C2 -/

/-- Content-idempotence of `add_email`: the call succeeds, either reuses
the id of the first stored row whose content equals the escaped supplied
content (inserting nothing) or inserts a fresh row under the next id, and
the join rows after the call are exactly the union of the old join rows
with `(cid, eid)` for every resolved contact id. -/
def AddEmailIdemSpec (db : DataBase) (contacts : List String) (d : Nat)
    (content summary : String) : Prop :=
  ∃ db1 eid, db.add_email contacts d content summary = .ok (db1, eid) ∧
    ((∃ e, db.emails.find? (fun x => x.content = escapeQuotes content) = some e ∧
        eid = e.id ∧ db1.emails = db.emails) ∨
      (db.emails.find? (fun x => x.content = escapeQuotes content) = none ∧
        eid = db.next_email_id ∧
        db1.emails = db.emails ++
          [⟨db.next_email_id, d, escapeQuotes summary, escapeQuotes content⟩])) ∧
    (∀ p : Nat × Nat, p ∈ db1.contact_emails ↔ p ∈ db.contact_emails ∨
      ∃ cid ∈ resolveContactIds db contacts, p = (cid, eid))

/-- Claim C2: email creation is idempotent in (escaped) content — an
existing row's id is reused and no row is added, otherwise a fresh row is
inserted and its fresh id returned — and the second call's links are added
with insert-or-ignore semantics, so the join set becomes the union of the
old and the new links. -/
theorem add_email_content_idempotent (db : DataBase) (contacts : List String)
    (d : Nat) (content summary : String) (hne : contacts ≠ []) :
    AddEmailIdemSpec db contacts d content summary := by
  unfold AddEmailIdemSpec
  refine ⟨_, _, add_email_eq db contacts d content summary hne, ?_, ?_⟩
  · cases hfind : db.emails.find? fun x => x.content = escapeQuotes content with
    | some e =>
      rw [findOrInsertEmail_found hfind, foldl_linkContact_emails]
      exact Or.inl ⟨e, rfl, rfl, rfl⟩
    | none =>
      rw [findOrInsertEmail_not_found hfind, foldl_linkContact_emails]
      exact Or.inr ⟨rfl, rfl, rfl⟩
  · intro p
    rw [foldl_linkContact_joins, resolveContactIds_findOrInsert,
      findOrInsertEmail_joins]

/-- Fixture for the C2 witness: a store already holding an email with
content `hi` linked to nobody, plus a contact reachable via value `a`. -/
def c2_store : DataBase :=
  ⟨[⟨1, "Ann", none, none, none, false, true, none, none⟩],
    [⟨1, "email", "a", true⟩], [⟨1, 3, "", "hi"⟩], [], 2, 2⟩

/-- Claim C2 (witness): the idempotence specification realised on the
fixture store. -/
theorem add_email_content_idempotent_witness :
    AddEmailIdemSpec c2_store ["a"] 7 "hi" "" :=
  add_email_content_idempotent c2_store ["a"] 7 "hi" "" (by decide)

/-! ## Claim C4 -/

/-- The `last_contacted` effect of linking: every contact row is mapped
through `bumpIfIn`; contacts outside the resolved set are untouched; the
bump sets the field to `d` exactly when it was null or strictly earlier,
leaves an equal-or-later value unchanged, and whenever it changes the field
it changes it to `d`. -/
def LastContactedSpec (db : DataBase) (contacts : List String) (d : Nat)
    (db1 : DataBase) : Prop :=
  db1.contacts = db.contacts.map (bumpIfIn (resolveContactIds db contacts) d) ∧
  (∀ c : Contact, c.id ∉ resolveContactIds db contacts →
    bumpIfIn (resolveContactIds db contacts) d c = c) ∧
  ∀ lc : Option Nat,
    (bumpLastContacted lc d ≠ lc ↔ lc = none ∨ ∃ o, lc = some o ∧ o < d) ∧
    (bumpLastContacted lc d ≠ lc → bumpLastContacted lc d = some d) ∧
    (∀ o, lc = some o → d ≤ o → bumpLastContacted lc d = lc)

/-- Claim C4: linking an email of date `d` updates each linked contact's
`last_contacted` monotonically — set to `d` iff currently null or strictly
earlier, unchanged when the current value is `d` or later — and leaves
non-linked contacts untouched. -/
theorem add_email_last_contacted_monotonic (db : DataBase)
    (contacts : List String) (d : Nat) (content summary : String)
    (db1 : DataBase) (eid : Nat)
    (h : db.add_email contacts d content summary = .ok (db1, eid)) :
    LastContactedSpec db contacts d db1 := by
  have hne := add_email_nonempty_of_ok h
  rw [add_email_eq db contacts d content summary hne] at h
  have hdb1 := (Prod.mk.injEq .. ▸ Except.ok.injEq .. ▸ h :
    _ ∧ _).1
  unfold LastContactedSpec
  refine ⟨?_, ?_, ?_⟩
  · rw [← hdb1, foldl_linkContact_contacts, findOrInsertEmail_contacts,
      resolveContactIds_findOrInsert]
  · intro c hc
    unfold bumpIfIn
    rw [if_neg hc]
  · intro lc
    refine ⟨?_, ?_, ?_⟩
    · unfold bumpLastContacted
      cases lc with
      | none => simp
      | some o =>
        by_cases ho : o < d
        · simp only [if_pos ho, ne_eq, Option.some.injEq]
          constructor
          · intro _
            exact Or.inr ⟨o, rfl, ho⟩
          · intro _ h
            omega
        · simp only [if_neg ho, ne_eq]
          constructor
          · intro h
            simp at h
          · rintro (h | ⟨o2, ho2, hlt⟩)
            · exact absurd h (by simp)
            · rw [Option.some.injEq] at ho2
              subst ho2
              intro _
              exact ho hlt
    · unfold bumpLastContacted
      cases lc with
      | none => intro _; rfl
      | some o =>
        by_cases ho : o < d
        · intro _; simp [ho]
        · intro hx; simp [ho] at hx
    · intro o hlc hdo
      subst hlc
      unfold bumpLastContacted
      have : ¬ o < d := by omega
      simp [this]

/-- Fixture for the C4 witness: one contact with `last_contacted = 5`. -/
def c4_store : DataBase :=
  ⟨[⟨1, "Ann", none, some 5, none, false, true, none, none⟩],
    [⟨1, "email", "a", true⟩], [], [], 2, 1⟩

/-- The store after linking an email dated 7 to that contact. -/
def c4_after : DataBase :=
  ⟨[⟨1, "Ann", none, some 7, none, false, true, none, none⟩],
    [⟨1, "email", "a", true⟩], [⟨1, 7, "", "x"⟩], [(1, 1)], 2, 2⟩

/-- Claim C4 (witness): linking an email dated 7 advances `last_contacted`
from 5 to 7 on the fixture. -/
theorem add_email_last_contacted_monotonic_witness :
    c4_store.add_email ["a"] 7 "x" "" = .ok (c4_after, 1) ∧
    LastContactedSpec c4_store ["a"] 7 c4_after :=
  ⟨rfl, add_email_last_contacted_monotonic c4_store ["a"] 7 "x" ""
    c4_after 1 rfl⟩

/-! ## Claim C5 -/

/-- Fixture for C5: the contact is named `Alice` but no contact-method
value equals `Alice`. -/
def c5_store : DataBase :=
  ⟨[⟨1, "Alice", some "Acme", some 5, none, false, true, none, none⟩],
    [⟨1, "email", "alice@x.com", true⟩], [], [], 2, 1⟩

/-- The result of `c5_store.add_email ["Alice"] 7 "hello" ""`: the email
row is created but no join row is written. -/
def c5_after : DataBase :=
  ⟨[⟨1, "Alice", some "Acme", some 5, none, false, true, none, none⟩],
    [⟨1, "email", "alice@x.com", true⟩], [⟨1, 7, "", "hello"⟩], [], 2, 2⟩

/-- Claim C5 (counterexample): an entry equal to a stored contact's NAME
resolves to nothing — the specified resolution (name or any method value)
would link contact 1, but the call succeeds with an empty join table, so
`add_email` does not match entries against contact names. -/
theorem add_email_name_entry_not_resolved :
    specResolveIds c5_store "Alice" = [1] ∧
    c5_store.add_email ["Alice"] 7 "hello" "" = .ok (c5_after, 1) ∧
    c5_after.contact_emails = [] :=
  ⟨by decide, rfl, by decide⟩

/-- Value-only resolution of `add_email`: the call succeeds (unresolvable
entries are silently dropped, not an error), the joins added are exactly
those for contact ids owning a method whose value occurs in the list —
contact names play no role — and the email row is reused or created. -/
def AddEmailResolutionSpec (db : DataBase) (contacts : List String) (d : Nat)
    (content summary : String) : Prop :=
  ∃ db1 eid, db.add_email contacts d content summary = .ok (db1, eid) ∧
    (∀ cid, (cid, eid) ∈ db1.contact_emails ↔
      (cid, eid) ∈ db.contact_emails ∨ cid ∈ resolveContactIds db contacts) ∧
    (∀ cid, cid ∈ resolveContactIds db contacts ↔
      ∃ c ∈ db.contacts, c.id = cid ∧
        ∃ m ∈ db.contact_methods, m.contact_id = c.id ∧ m.value ∈ contacts) ∧
    (db1.emails = db.emails ∨ db1.emails = db.emails ++
      [⟨db.next_email_id, d, escapeQuotes summary, escapeQuotes content⟩])

/-- Claim C5 (amended): entries of the contacts list are resolved against
contact-method values only (not names); an entry resolving to no stored
value is silently dropped — the email row is still created or reused, no
join row is written for it, and the operation succeeds. -/
theorem add_email_resolution_value_only (db : DataBase)
    (contacts : List String) (d : Nat) (content summary : String)
    (hne : contacts ≠ []) :
    AddEmailResolutionSpec db contacts d content summary := by
  unfold AddEmailResolutionSpec
  refine ⟨_, _, add_email_eq db contacts d content summary hne, ?_, ?_, ?_⟩
  · intro cid
    rw [foldl_linkContact_joins, resolveContactIds_findOrInsert,
      findOrInsertEmail_joins]
    constructor
    · rintro (hp | ⟨c, hcm, hpe⟩)
      · exact Or.inl hp
      · obtain ⟨h1, _⟩ := Prod.mk.injEq .. ▸ hpe
        exact Or.inr (h1 ▸ hcm)
    · rintro (hp | hcm)
      · exact Or.inl hp
      · exact Or.inr ⟨cid, hcm, rfl⟩
  · intro cid
    exact mem_resolveContactIds db contacts cid
  · cases hfind : db.emails.find? fun x => x.content = escapeQuotes content with
    | some e =>
      rw [findOrInsertEmail_found hfind, foldl_linkContact_emails]
      exact Or.inl rfl
    | none =>
      rw [findOrInsertEmail_not_found hfind, foldl_linkContact_emails]
      exact Or.inr rfl

/-- Claim C5 (witness): the amended resolution specification realised on
the fixture store with one resolvable and one unresolvable entry. -/
theorem add_email_resolution_value_only_witness :
    AddEmailResolutionSpec c5_store ["Alice", "alice@x.com"] 7 "hello" "" :=
  add_email_resolution_value_only c5_store ["Alice", "alice@x.com"] 7 "hello" ""
    (by decide)

/-! ## Claim C3 -/

/-- An empty store for the C3 failing input. -/
def c3_empty : DataBase := ⟨[], [], [], [], 1, 1⟩

/-- Claim C3 (code bug): deleting a contact that does not exist while
supplying the company filter text `Multiple contacts found` hits the
zero-match branch — a not-found failure — yet the route's status dispatch,
which merely greps the error message for `Multiple contacts found`, maps it
to 409 instead of the documented 404. -/
theorem delete_contact_not_found_mapped_409 :
    deleteMatches c3_empty "X" none (some "Multiple contacts found") = [] ∧
    c3_empty.delete_contact "X" none (some "Multiple contacts found") =
      (c3_empty, false,
        some (deleteNotFoundMsg none (some "Multiple contacts found"))) ∧
    apiDeleteStatus false
      (some (deleteNotFoundMsg none (some "Multiple contacts found"))) = 409 :=
  ⟨by decide, rfl, by decide⟩

/-! ## Claim C10 -/

/-- Does the string contain a single quote? -/
def hasQuote (s : String) : Bool := s.data.contains sq

theorem escChars_injective : ∀ a b : List Char, escChars a = escChars b → a = b := by
  intro a
  induction a with
  | nil =>
    intro b h
    cases b with
    | nil => rfl
    | cons y b =>
      exfalso
      unfold escChars at h
      by_cases hy : y = sq <;> simp [hy] at h
  | cons x a ih =>
    intro b h
    cases b with
    | nil =>
      exfalso
      unfold escChars at h
      by_cases hx : x = sq <;> simp [hx] at h
    | cons y b =>
      unfold escChars at h
      by_cases hx : x = sq <;> by_cases hy : y = sq
      · rw [if_pos hx, if_pos hy] at h
        simp only [List.cons.injEq] at h
        rw [hx, hy, ih b h.2.2]
      · rw [if_pos hx, if_neg hy] at h
        simp only [List.cons.injEq] at h
        exact absurd (h.1.symm.trans hx) hy
      · rw [if_neg hx, if_pos hy] at h
        simp only [List.cons.injEq] at h
        exact absurd (h.1.trans hy) hx
      · rw [if_neg hx, if_neg hy] at h
        simp only [List.cons.injEq] at h
        rw [h.1, ih b h.2]

theorem escChars_length_le : ∀ l : List Char, l.length ≤ (escChars l).length := by
  intro l
  induction l with
  | nil => exact Nat.le_refl 0
  | cons c r ih =>
    unfold escChars
    by_cases hc : c = sq
    · rw [if_pos hc]
      simp only [List.length_cons]
      omega
    · rw [if_neg hc]
      simp only [List.length_cons]
      omega

theorem escChars_length_lt {l : List Char} (h : sq ∈ l) :
    l.length < (escChars l).length := by
  induction l with
  | nil => cases h
  | cons c r ih =>
    unfold escChars
    by_cases hc : c = sq
    · rw [if_pos hc]
      have := escChars_length_le r
      simp only [List.length_cons]
      omega
    · rw [if_neg hc]
      have hmem : sq ∈ r := by
        rcases List.mem_cons.mp h with hx | hx
        · exact absurd hx.symm hc
        · exact hx
      have := ih hmem
      simp only [List.length_cons]
      omega

/-- Claim C10: both `add_email` and `update_emails_for_contact` persist
`content`/`summary` with every single quote doubled (the escaping is
applied before an already-parameterized INSERT), hence the stored content
differs from any supplied content containing a quote; duplicate detection
compares the escaped strings, and since the escaping map is injective the
operations remain idempotent for a fixed input — a repeated `add_email`
with the same content returns the same id. -/
theorem escaped_persistence_and_injectivity :
    (∀ a b : String, escapeQuotes a = escapeQuotes b → a = b) ∧
    (∀ s : String, hasQuote s = true → escapeQuotes s ≠ s) ∧
    (∀ (db : DataBase) (co : List String) (d : Nat) (content summary : String),
      db.emails.find? (fun x => x.content = escapeQuotes content) = none →
      co ≠ [] →
      ∃ db1, db.add_email co d content summary = .ok (db1, db.next_email_id) ∧
        db1.emails = db.emails ++
          [⟨db.next_email_id, d, escapeQuotes summary, escapeQuotes content⟩]) ∧
    (∀ (db : DataBase) (cid : Nat) (d : Nat) (content summary : String),
      db.emails.find? (fun x => x.content = escapeQuotes content) = none →
      (db.update_emails_for_contact cid d content summary).emails =
        db.emails ++
          [⟨db.next_email_id, d, escapeQuotes summary, escapeQuotes content⟩]) ∧
    (∀ (db : DataBase) (co co2 : List String) (d d2 : Nat)
      (s s2 content : String) (db1 : DataBase) (i : Nat),
      db.add_email co d content s = .ok (db1, i) → co2 ≠ [] →
      ∃ db2, db1.add_email co2 d2 content s2 = .ok (db2, i)) := by
  refine ⟨?_, ?_, ?_, ?_, ?_⟩
  · intro a b h
    have hd : escChars a.data = escChars b.data := congrArg String.data h
    exact String.ext (escChars_injective a.data b.data hd)
  · intro s hq h
    have hd : escChars s.data = s.data := congrArg String.data h
    have hmem : sq ∈ s.data := (contains_iff_mem _ _).mp hq
    have := escChars_length_lt hmem
    rw [hd] at this
    omega
  · intro db co d content summary hfind hne
    have h2 := @findOrInsertEmail_not_found db d (escapeQuotes summary)
      (escapeQuotes content) hfind
    refine ⟨(resolveContactIds db co).foldl (linkContact d db.next_email_id)
        { db with
            emails := db.emails ++
              [⟨db.next_email_id, d, escapeQuotes summary, escapeQuotes content⟩],
            next_email_id := db.next_email_id + 1 }, ?_, ?_⟩
    · rw [add_email_eq db co d content summary hne, h2]
      rfl
    · rw [foldl_linkContact_emails]
  · intro db cid d content summary hfind
    unfold DataBase.update_emails_for_contact
    rw [@findOrInsertEmail_not_found db d (escapeQuotes summary)
      (escapeQuotes content) hfind, linkContact_emails]
  · intro db co co2 d d2 s s2 content db1 i h hne2
    have hne := add_email_nonempty_of_ok h
    rw [add_email_eq db co d content s hne] at h
    cases hfind : db.emails.find? fun x => x.content = escapeQuotes content with
    | some e =>
      rw [findOrInsertEmail_found hfind] at h
      simp only [Except.ok.injEq, Prod.mk.injEq] at h
      obtain ⟨hdb1, hi⟩ := h
      subst hi
      have hemails : db1.emails = db.emails := by
        rw [← hdb1, foldl_linkContact_emails]
      have hfind2 : db1.emails.find? (fun x => x.content = escapeQuotes content) =
          some e := by
        rw [hemails, hfind]
      refine ⟨(resolveContactIds db1 co2).foldl (linkContact d2 e.id) db1, ?_⟩
      rw [add_email_eq db1 co2 d2 content s2 hne2, findOrInsertEmail_found hfind2]
    | none =>
      rw [findOrInsertEmail_not_found hfind] at h
      simp only [Except.ok.injEq, Prod.mk.injEq] at h
      obtain ⟨hdb1, hi⟩ := h
      subst hi
      have hemails : db1.emails = db.emails ++
          [⟨db.next_email_id, d, escapeQuotes s, escapeQuotes content⟩] := by
        rw [← hdb1, foldl_linkContact_emails]
      have hfind2 : db1.emails.find? (fun x => x.content = escapeQuotes content) =
          some ⟨db.next_email_id, d, escapeQuotes s, escapeQuotes content⟩ := by
        rw [hemails, List.find?_append, hfind]
        simp [List.find?]
      refine ⟨(resolveContactIds db1 co2).foldl (linkContact d2 db.next_email_id) db1, ?_⟩
      rw [add_email_eq db1 co2 d2 content s2 hne2, findOrInsertEmail_found hfind2]

/-- Claim C10 (witness): realised on concrete inputs — a quoted string is
changed by escaping, two distinct strings stay distinct, a fresh insert
stores the escaped content, and a repeated call returns the same id. -/
theorem escaped_persistence_and_injectivity_witness :
    (hasQuote (sqs ++ "a") = true ∧ escapeQuotes (sqs ++ "a") ≠ sqs ++ "a") ∧
    (∃ db1, c3_empty.add_email ["x"] 7 (sqs ++ "a") "" = .ok (db1, 1) ∧
      db1.emails = [⟨1, 7, "", escapeQuotes (sqs ++ "a")⟩]) := by
  have h := escaped_persistence_and_injectivity
  refine ⟨⟨by decide, h.2.1 (sqs ++ "a") (by decide)⟩, ?_⟩
  obtain ⟨db1, hok, hemails⟩ := h.2.2.1 c3_empty ["x"] 7 (sqs ++ "a") ""
    (by decide) (by decide)
  exact ⟨db1, hok, hemails⟩

/-! ## Claim C8 -/

/-- Exact-match semantics of `get_contact_by_email`: `none` exactly when no
email-typed method row carries the value; a returned contact is a stored
contact owning such a row, and it is the first stored contact doing so. -/
def GetByEmailSpec (db : DataBase) (email : String) : Prop :=
  (ContactService.get_contact_by_email db email = none ↔
    ∀ m ∈ db.contact_methods, ¬(m.method_type = "email" ∧ m.value = email)) ∧
  ∀ c, ContactService.get_contact_by_email db email = some c →
    c ∈ db.contacts ∧
    (∃ m ∈ db.contact_methods,
      m.contact_id = c.id ∧ m.method_type = "email" ∧ m.value = email) ∧
    ∃ pre post, db.contacts = pre ++ c :: post ∧
      ∀ c2 ∈ pre, ¬∃ m ∈ db.contact_methods,
        m.contact_id = c2.id ∧ m.method_type = "email" ∧ m.value = email

/-- Claim C8: `get_contact_by_email` performs an exact (not substring)
match against email-typed `ContactMethod` values and returns the first
matching contact; it returns `none` exactly when no email-typed row has a
value equal to the argument. -/
theorem get_contact_by_email_exact_semantics (db : DataBase) (email : String)
    (hwf : WF db) : GetByEmailSpec db email := by
  constructor
  · unfold ContactService.get_contact_by_email
    rw [List.find?_eq_none]
    constructor
    · rintro hall m hm ⟨ht, hv⟩
      obtain ⟨c, hc, hcid⟩ := hwf m hm
      apply hall c hc
      rw [List.any_eq_true]
      exact ⟨m, hm, by simp [hcid.symm, ht, hv]⟩
    · intro hno c _ hp
      rw [List.any_eq_true] at hp
      obtain ⟨m, hm, hpm⟩ := hp
      simp only [Bool.and_eq_true, decide_eq_true_eq] at hpm
      exact hno m hm ⟨hpm.1.2, hpm.2⟩
  · intro c hc
    unfold ContactService.get_contact_by_email at hc
    rw [List.find?_eq_some] at hc
    obtain ⟨hpred, pre, post, hsplit, hprev⟩ := hc
    rw [List.any_eq_true] at hpred
    obtain ⟨m, hm, hpm⟩ := hpred
    simp only [Bool.and_eq_true, decide_eq_true_eq] at hpm
    refine ⟨?_, ⟨m, hm, hpm.1.1, hpm.1.2, hpm.2⟩, pre, post, hsplit, ?_⟩
    · rw [hsplit]
      exact List.mem_append_right pre (List.mem_cons_self ..)
    · rintro c2 hc2 ⟨m2, hm2, hid2, ht2, hv2⟩
      have := hprev c2 hc2
      rw [Bool.not_eq_eq_eq_not, Bool.not_true, List.any_eq_false] at this
      exact absurd (by simp [hid2, ht2, hv2]) (this m2 hm2)

/-- Fixture for the C8 witness. -/
def c8_store : DataBase :=
  ⟨[⟨1, "Ann", none, none, none, false, true, none, none⟩,
    ⟨2, "Bea", none, none, none, false, true, none, none⟩],
    [⟨1, "phone", "555", false⟩, ⟨2, "email", "b@x.com", true⟩], [], [], 3, 1⟩

/-- Claim C8 (witness): the specification realised on a concrete store. -/
theorem get_contact_by_email_exact_semantics_witness :
    GetByEmailSpec c8_store "b@x.com" :=
  get_contact_by_email_exact_semantics c8_store "b@x.com" (by decide)

/-! ## Claim C7 -/

theorem likeMatch_cons (c : Char) (p t : List Char) :
    likeMatch (c :: p) t =
      if c = '%' then (t.tails).any fun s => likeMatch p s
      else
        match t with
        | [] => false
        | d :: t2 => (if c = '_' then true else c = d) && likeMatch p t2 := by
  rfl

theorem likeMatch_lit :
    ∀ l : List Char, (∀ ch ∈ l, ch ≠ '%' ∧ ch ≠ '_') →
      ∀ t, likeMatch (l ++ ['%']) t = isPrefixChars l t := by
  intro l
  induction l with
  | nil =>
    intro _ t
    rw [List.nil_append, likeMatch_cons, if_pos rfl]
    have : (t.tails.any fun s => likeMatch [] s) = true := by
      rw [List.any_eq_true]
      refine ⟨[], ?_, rfl⟩
      rw [List.mem_tails]
      exact List.nil_suffix
    rw [this]
    rfl
  | cons c l ih =>
    intro hl t
    have hc := hl c (List.mem_cons_self ..)
    rw [List.cons_append, likeMatch_cons, if_neg hc.1]
    cases t with
    | nil => rfl
    | cons d t2 =>
      have ih2 := ih (fun ch hch => hl ch (List.mem_cons_of_mem _ hch)) t2
      simp only [if_neg hc.2, ih2]
      rfl

theorem isSubChars_eq_any_tails (n : List Char) :
    ∀ h, isSubChars n h = h.tails.any (isPrefixChars n) := by
  intro h
  induction h with
  | nil => cases n <;> rfl
  | cons c t ih =>
    rw [List.tails_cons, List.any_cons, ← ih]
    rfl

/-- With a `%`/`_`-free filter, the `ILIKE %f%` pattern coincides with a
case-insensitive substring test. -/
theorem ilike_pct_eq_containsSubCI (pat s : String)
    (hl : ∀ ch ∈ (strLower pat).data, ch ≠ '%' ∧ ch ≠ '_') :
    ilike (pctPat pat) s = containsSubCI pat s := by
  have hdata : lowerChars (pctPat pat).data =
      '%' :: (lowerChars pat.data ++ ['%']) := by
    show lowerChars (("%" ++ pat ++ "%").data) = _
    have : ("%" ++ pat ++ "%").data = '%' :: (pat.data ++ ['%']) := by
      show (("%" ++ pat) ++ "%").data = _
      rw [show (("%" ++ pat) ++ "%").data = ("%" ++ pat).data ++ "%".data from rfl,
        show ("%" ++ pat).data = "%".data ++ pat.data from rfl]
      rfl
    rw [this]
    unfold lowerChars
    rw [List.map_cons, List.map_append]
    rfl
  have hl2 : ∀ ch ∈ lowerChars pat.data, ch ≠ '%' ∧ ch ≠ '_' := hl
  unfold ilike containsSubCI
  rw [hdata, likeMatch_cons, if_pos rfl]
  have hlit : ∀ t, likeMatch (lowerChars pat.data ++ ['%']) t =
      isPrefixChars (lowerChars pat.data) t :=
    likeMatch_lit (lowerChars pat.data) hl2
  simp only [hlit]
  exact (isSubChars_eq_any_tails _ _).symm

theorem filterByName_some (n : String) (l : List Contact) :
    filterByName (some n) l =
      if n ≠ "" then l.filter (fun c => ilike (pctPat n) c.name) else l := rfl

theorem filterByCompany_some (co : String) (l : List Contact) :
    filterByCompany (some co) l =
      if co ≠ "" then
        l.filter fun c =>
          match c.company with
          | some s => ilike (pctPat co) s
          | none => false
      else l := rfl

theorem filterByEmail_some (db : DataBase) (em : String) (l : List Contact) :
    filterByEmail db (some em) l =
      if em ≠ "" then
        l.filter fun c =>
          db.contact_methods.any fun m =>
            m.contact_id = c.id && m.method_type = "email" &&
              ilike (pctPat em) m.value
      else l := rfl

theorem mem_filterByName (name : Option String) (l : List Contact)
    (c : Contact) (hn : name ≠ some "") :
    c ∈ filterByName name l ↔
      c ∈ l ∧ ∀ n, name = some n → ilike (pctPat n) c.name = true := by
  cases name with
  | none => simp [filterByName]
  | some n =>
    have hne : n ≠ "" := fun h => hn (by rw [h])
    rw [filterByName_some, if_pos hne, List.mem_filter]
    constructor
    · rintro ⟨hc, hp⟩
      refine ⟨hc, fun n2 heq => ?_⟩
      injection heq with h2
      rw [← h2]
      exact hp
    · rintro ⟨hc, hp⟩
      exact ⟨hc, hp n rfl⟩

theorem mem_filterByCompany (company : Option String) (l : List Contact)
    (c : Contact) (hco : company ≠ some "") :
    c ∈ filterByCompany company l ↔
      c ∈ l ∧ ∀ co, company = some co →
        ∃ s, c.company = some s ∧ ilike (pctPat co) s = true := by
  cases company with
  | none => simp [filterByCompany]
  | some co =>
    have hne : co ≠ "" := fun h => hco (by rw [h])
    rw [filterByCompany_some, if_pos hne, List.mem_filter]
    constructor
    · rintro ⟨hc, hp⟩
      refine ⟨hc, fun co2 heq => ?_⟩
      injection heq with h2
      subst h2
      cases hcomp : c.company with
      | none => rw [hcomp] at hp; cases hp
      | some s =>
        rw [hcomp] at hp
        exact ⟨s, rfl, hp⟩
    · rintro ⟨hc, hp⟩
      obtain ⟨s, hs, hil⟩ := hp co rfl
      refine ⟨hc, ?_⟩
      rw [hs]
      exact hil

theorem mem_filterByEmail (db : DataBase) (email : Option String)
    (l : List Contact) (c : Contact) (he : email ≠ some "") :
    c ∈ filterByEmail db email l ↔
      c ∈ l ∧ ∀ em, email = some em →
        ∃ m ∈ db.contact_methods, m.contact_id = c.id ∧
          m.method_type = "email" ∧ ilike (pctPat em) m.value = true := by
  cases email with
  | none => simp [filterByEmail]
  | some em =>
    have hne : em ≠ "" := fun h => he (by rw [h])
    rw [filterByEmail_some, if_pos hne, List.mem_filter]
    constructor
    · rintro ⟨hc, hp⟩
      refine ⟨hc, fun em2 heq => ?_⟩
      injection heq with h2
      subst h2
      rw [List.any_eq_true] at hp
      obtain ⟨m, hm, hpm⟩ := hp
      simp only [Bool.and_eq_true, decide_eq_true_eq] at hpm
      exact ⟨m, hm, hpm.1.1, hpm.1.2, hpm.2⟩
    · rintro ⟨hc, hp⟩
      obtain ⟨m, hm, hid, ht, hil⟩ := hp em rfl
      refine ⟨hc, ?_⟩
      rw [List.any_eq_true]
      exact ⟨m, hm, by simp [hid, ht, hil]⟩

/-- Filter semantics of `get_contacts`: membership in the result is
equivalent to membership in the store AND each supplied filter's `ILIKE
%f%` test (name against the contact name, company against a non-null
company, email against some email-typed method of the contact). -/
def GetContactsSpec (db : DataBase) (name email company : Option String) : Prop :=
  ∀ c, c ∈ ContactService.get_contacts db name email company ↔
    c ∈ db.contacts ∧
    (∀ n, name = some n → ilike (pctPat n) c.name = true) ∧
    (∀ co, company = some co →
      ∃ s, c.company = some s ∧ ilike (pctPat co) s = true) ∧
    (∀ em, email = some em →
      ∃ m ∈ db.contact_methods, m.contact_id = c.id ∧
        m.method_type = "email" ∧ ilike (pctPat em) m.value = true)

/-- Claim C7 (amended): each supplied (non-empty) filter is an independent
case-insensitive SQL `LIKE` match of the pattern `%filter%` (so `%` and `_`
inside the filter act as wildcards); filters combine with AND; absent
filters exclude nothing; the email filter matches only email-typed method
rows; and for filters free of `%`/`_` the test coincides with the
case-insensitive substring match the specification describes. -/
theorem get_contacts_filter_semantics (db : DataBase)
    (name email company : Option String) (hn : name ≠ some "")
    (he : email ≠ some "") (hco : company ≠ some "") :
    GetContactsSpec db name email company ∧
    ∀ pat s : String, (∀ ch ∈ (strLower pat).data, ch ≠ '%' ∧ ch ≠ '_') →
      ilike (pctPat pat) s = containsSubCI pat s := by
  constructor
  · intro c
    unfold ContactService.get_contacts
    rw [mem_filterByEmail db email _ c he, mem_filterByCompany company _ c hco,
      mem_filterByName name _ c hn]
    tauto
  · exact fun pat s hl => ilike_pct_eq_containsSubCI pat s hl

/-- Fixture for the C7 counterexample: company `aXb` matched by the
wildcard filter `a%b`. -/
def c7_store : DataBase :=
  ⟨[⟨1, "A", some "aXb", none, none, false, true, none, none⟩],
    [], [], [], 2, 1⟩

/-- Claim C7 (counterexample): the company filter `a%b` is NOT a substring
match — `a%b` is not a substring of `aXb`, yet `get_contacts` returns the
contact because the filter text is interpolated into an `ILIKE` pattern
where `%` is a wildcard. -/
theorem get_contacts_like_wildcard_not_substring :
    ContactService.get_contacts c7_store none none (some "a%b") =
      [⟨1, "A", some "aXb", none, none, false, true, none, none⟩] ∧
    containsSubCI "a%b" "aXb" = false ∧
    c7_store.contacts.filter (specContactMatches c7_store none none (some "a%b")) =
      [] := by
  exact ⟨by decide, by decide, by decide⟩

/-- Fixture for the C7 witness. -/
def c7w_store : DataBase :=
  ⟨[⟨1, "ALICE", none, none, none, false, true, none, none⟩,
    ⟨2, "Bob", none, none, none, false, true, none, none⟩],
    [], [], [], 3, 1⟩

/-- Claim C7 (witness): the filter specification realised concretely, and
the wildcard-free filter `li` agreeing with the substring test. -/
theorem get_contacts_filter_semantics_witness :
    GetContactsSpec c7w_store (some "li") none none ∧
    ilike (pctPat "li") "ALICE" = containsSubCI "li" "ALICE" := by
  have h := get_contacts_filter_semantics c7w_store (some "li") none none
    (by decide) (by decide) (by decide)
  exact ⟨h.1, h.2 "li" "ALICE" (by decide)⟩

/-! ## Claim C6 -/

theorem mem_insertByDateDesc (e x : Email) (l : List Email) :
    x ∈ insertByDateDesc e l ↔ x = e ∨ x ∈ l := by
  induction l with
  | nil => simp [insertByDateDesc]
  | cons y t ih =>
    unfold insertByDateDesc
    by_cases h : y.date < e.date
    · rw [if_pos h]
      simp [List.mem_cons]
    · rw [if_neg h, List.mem_cons, ih, List.mem_cons]
      tauto

theorem mem_sortByDateDesc (x : Email) : ∀ l, x ∈ sortByDateDesc l ↔ x ∈ l := by
  intro l
  induction l with
  | nil => simp [sortByDateDesc]
  | cons y t ih =>
    unfold sortByDateDesc
    rw [mem_insertByDateDesc, ih, List.mem_cons]

theorem mem_emailPairs (db : DataBase) (e : Email) (nv : String × String) :
    nv ∈ emailPairs db e ↔
      ∃ ce ∈ db.contact_emails, ce.2 = e.id ∧
        ∃ c ∈ db.contacts, c.id = ce.1 ∧ c.name = nv.1 ∧
          ∃ m ∈ db.contact_methods, m.contact_id = c.id ∧
            m.method_type = "email" ∧ m.value = nv.2 := by
  obtain ⟨n1, v1⟩ := nv
  unfold emailPairs
  simp only [List.mem_flatMap, List.mem_filter, List.mem_map,
    Bool.and_eq_true, decide_eq_true_eq, Prod.mk.injEq]
  constructor
  · rintro ⟨ce, ⟨hce, hid⟩, c, ⟨hc, hcid⟩, m, ⟨hm, hmc, hmt⟩, hn, hv⟩
    exact ⟨ce, hce, hid, c, hc, hcid, hn, m, hm, hmc, hmt, hv⟩
  · rintro ⟨ce, hce, hid, c, hc, hcid, hn, m, hm, hmc, hmt, hv⟩
    exact ⟨ce, ⟨hce, hid⟩, c, ⟨hc, hcid⟩, m, ⟨hm, hmc, hmt⟩, hn, hv⟩

theorem mem_fetch_emails_with_contacts (db : DataBase) (filter : List String)
    (e : Email) (ps : List (String × String)) :
    (e, ps) ∈ db.fetch_emails_with_contacts filter ↔
      e ∈ db.emails ∧ ps = emailPairs db e ∧ emailPairs db e ≠ [] ∧
      (filter = [] ∨ ∃ ce ∈ db.contact_emails, ce.2 = e.id ∧
        ∃ c ∈ db.contacts, c.id = ce.1 ∧ c.name ∈ filter) := by
  have hbool : ∀ l : List (String × String), ((!l.isEmpty) = true) ↔ l ≠ [] := by
    intro l; cases l <;> simp
  cases filter with
  | nil =>
    have hsel : db.fetch_emails_with_contacts [] =
        ((sortByDateDesc db.emails).filter fun e2 => !(emailPairs db e2).isEmpty).map
          fun e2 => (e2, emailPairs db e2) := rfl
    rw [hsel]
    simp only [List.mem_map, List.mem_filter, mem_sortByDateDesc, Prod.mk.injEq]
    constructor
    · rintro ⟨e2, ⟨he2, hne⟩, heq, hpair⟩
      subst heq
      exact ⟨he2, hpair.symm, (hbool _).mp hne, Or.inl trivial⟩
    · rintro ⟨he, hps, hne, _⟩
      exact ⟨e, ⟨he, (hbool _).mpr hne⟩, rfl, hps.symm⟩
  | cons f fs =>
    have hsel : db.fetch_emails_with_contacts (f :: fs) =
        ((sortByDateDesc (db.emails.filter fun e2 =>
            db.contact_emails.any fun ce => ce.2 = e2.id &&
              db.contacts.any fun c =>
                c.id = ce.1 && (f :: fs).contains c.name)).filter
          fun e2 => !(emailPairs db e2).isEmpty).map
          fun e2 => (e2, emailPairs db e2) := rfl
    rw [hsel]
    simp only [List.mem_map, List.mem_filter, mem_sortByDateDesc, Prod.mk.injEq]
    constructor
    · rintro ⟨e2, ⟨⟨he2, hselp⟩, hne⟩, heq, hpair⟩
      subst heq
      rw [List.any_eq_true] at hselp
      obtain ⟨ce, hce, hpce⟩ := hselp
      simp only [Bool.and_eq_true, decide_eq_true_eq, List.any_eq_true] at hpce
      obtain ⟨hid, c, hc, hcid, hcontains⟩ := hpce
      exact ⟨he2, hpair.symm, (hbool _).mp hne,
        Or.inr ⟨ce, hce, hid, c, hc, hcid, (contains_iff_mem _ _).mp hcontains⟩⟩
    · rintro ⟨he, hps, hne, hselp⟩
      rcases hselp with hc | ⟨ce, hce, hid, c, hc, hcid, hname⟩
      · cases hc
      · refine ⟨e, ⟨⟨he, ?_⟩, (hbool _).mpr hne⟩, rfl, hps.symm⟩
        rw [List.any_eq_true]
        refine ⟨ce, hce, ?_⟩
        simp only [Bool.and_eq_true, decide_eq_true_eq, List.any_eq_true]
        exact ⟨hid, c, hc, hcid, (contains_iff_mem _ _).mpr hname⟩

/-- Aggregation semantics of `fetch_emails_with_contacts`: every yielded
row is a stored email paired with its full `emailPairs` aggregate (one
`(name, value)` pair per linked-contact × email-typed-method combination,
as the pair-membership equivalence states); emails whose linked contacts
own no email-typed method are omitted; with a non-empty name filter only
emails linked to a named contact are yielded, and every passing email with
a non-empty aggregate is yielded. -/
def FetchWithContactsSpec (db : DataBase) (filter : List String) : Prop :=
  (∀ e ps, (e, ps) ∈ db.fetch_emails_with_contacts filter →
    e ∈ db.emails ∧ ps = emailPairs db e ∧ ps ≠ []) ∧
  (∀ e ∈ db.emails, emailPairs db e ≠ [] →
    (filter = [] ∨ ∃ ce ∈ db.contact_emails, ce.2 = e.id ∧
      ∃ c ∈ db.contacts, c.id = ce.1 ∧ c.name ∈ filter) →
    (e, emailPairs db e) ∈ db.fetch_emails_with_contacts filter) ∧
  (∀ e ps, (e, ps) ∈ db.fetch_emails_with_contacts filter → filter ≠ [] →
    ∃ ce ∈ db.contact_emails, ce.2 = e.id ∧
      ∃ c ∈ db.contacts, c.id = ce.1 ∧ c.name ∈ filter) ∧
  (∀ e nv, nv ∈ emailPairs db e ↔
    ∃ ce ∈ db.contact_emails, ce.2 = e.id ∧
      ∃ c ∈ db.contacts, c.id = ce.1 ∧ c.name = nv.1 ∧
        ∃ m ∈ db.contact_methods, m.contact_id = c.id ∧
          m.method_type = "email" ∧ m.value = nv.2)

/-- Claim C6 (amended): each yielded email is paired with one
`(contact name, method value)` pair per combination of a contact link and
an email-typed method of that contact — not one pair per contact and with
no primary-or-first selection; linked contacts without an email-typed
method are dropped from the aggregate, and emails with an empty aggregate
are dropped entirely. -/
theorem fetch_with_contacts_pairs_characterization (db : DataBase)
    (filter : List String) : FetchWithContactsSpec db filter := by
  refine ⟨?_, ?_, ?_, ?_⟩
  · intro e ps h
    rw [mem_fetch_emails_with_contacts] at h
    exact ⟨h.1, h.2.1, h.2.1 ▸ h.2.2.1⟩
  · intro e he hne hsel
    rw [mem_fetch_emails_with_contacts]
    exact ⟨he, rfl, hne, hsel⟩
  · intro e ps h hf
    rw [mem_fetch_emails_with_contacts] at h
    rcases h.2.2.2 with h2 | h2
    · exact absurd h2 hf
    · exact h2
  · exact fun e nv => mem_emailPairs db e nv

/-- Fixture for the C6 counterexample: one email linked to one contact
that owns two email-typed methods, `a1` (primary) and `a2`. -/
def c6_store : DataBase :=
  ⟨[⟨1, "A", none, none, none, false, true, none, none⟩],
    [⟨1, "email", "a1", true⟩, ⟨1, "email", "a2", false⟩],
    [⟨1, 9, "s", "c"⟩], [(1, 1)], 2, 2⟩

/-- Claim C6 (counterexample): the single linked contact contributes TWO
pairs (one per email-typed method), not exactly one pair with the primary
address — the yielded list is `[("A", a1), ("A", a2)]`, not `[("A", a1)]`. -/
theorem fetch_emails_with_contacts_multiple_pairs_per_contact :
    c6_store.fetch_emails_with_contacts [] =
      [(⟨1, 9, "s", "c"⟩, [("A", "a1"), ("A", "a2")])] ∧
    (c6_store.contacts.filter fun c =>
      c6_store.contact_emails.contains (c.id, 1)) =
      [⟨1, "A", none, none, none, false, true, none, none⟩] ∧
    [("A", "a1"), ("A", "a2")] ≠ [("A", "a1")] := by
  exact ⟨by decide, by decide, by decide⟩

/-- Claim C6 (witness): the aggregation specification realised on the
fixture store. -/
theorem fetch_with_contacts_pairs_characterization_witness :
    FetchWithContactsSpec c6_store [] :=
  fetch_with_contacts_pairs_characterization c6_store []

/-! ## Claim C9 -/

/-- No email-typed contact-method row of the store matches the (lower-
cased) address: the lookups of `save_emails_to_db` all come back empty. -/
def Unresolvable (db : OrmDB) (addr : String) : Prop :=
  ∀ m ∈ db.contact_methods, m.method_type = "email" → strLower m.value ≠ addr

theorem lookupContactByEmailCI_eq_none {db : OrmDB} {addr : String}
    (h : Unresolvable db addr) : lookupContactByEmailCI db addr = none := by
  unfold lookupContactByEmailCI
  rw [List.find?_eq_none]
  intro c _ hp
  rw [List.any_eq_true] at hp
  obtain ⟨m, hm, hpm⟩ := hp
  simp only [Bool.and_eq_true, decide_eq_true_eq] at hpm
  exact h m hm hpm.1.2 hpm.2

/-- The batch element that trips the bug: a non-falsy date, no duplicate by
message id, and a sender plus recipients that all fail to resolve against
the store's email-typed contact methods. -/
def SaveEmailsTrigger (db : OrmDB) (e : GmailEmail) : Prop :=
  (∃ s, e.date = some s ∧ s ≠ "") ∧
  (∀ mid, e.message_id = some mid → ∀ em ∈ db.emails, em.message_id ≠ some mid) ∧
  Unresolvable db (strLower e.from_email) ∧
  (∀ r ∈ e.to_emails ++ e.cc_emails, Unresolvable db (strLower r))

theorem dateFalsy_false {e : GmailEmail} {s : String} (hds : e.date = some s)
    (hs : s ≠ "") : dateFalsy e = false := by
  unfold dateFalsy
  rw [hds]
  simp [hs]

theorem isDupMessage_false {db : OrmDB} {e : GmailEmail}
    (h : ∀ mid, e.message_id = some mid →
      ∀ em ∈ db.emails, em.message_id ≠ some mid) :
    isDupMessage db e = false := by
  unfold isDupMessage
  cases hm : e.message_id with
  | none => rfl
  | some mid =>
    have hany : (db.emails.any fun em => em.message_id = some mid) = false := by
      rw [List.any_eq_false]
      intro em hem
      simp only [decide_eq_true_eq]
      exact h mid hm em hem
    simp only [hany, Bool.and_false]

theorem senderLookup_none {ue : List String} {db : OrmDB} {addr : String}
    (h : Unresolvable db addr) : senderLookup ue db addr = none := by
  unfold senderLookup
  split
  · exact lookupContactByEmailCI_eq_none h
  · rfl

/-- Hitting the filtered-out branch with the uninitialized counter raises
the `UnboundLocalError`. -/
theorem processEmail_trigger (ue : List String) (pd : String → Option Nat)
    (st : OrmDB × SaveCounts × Option Nat) (e : GmailEmail)
    (hfo : st.2.2 = none) (ht : SaveEmailsTrigger st.1 e) :
    EmailService.processEmail ue pd st e = .error (.unboundLocal "filtered_out") := by
  obtain ⟨⟨s, hds, hs⟩, hdup, hsend, hrec⟩ := ht
  have hrecnil : ((e.to_emails.map strLower ++ e.cc_emails.map strLower).filterMap
      (lookupContactByEmailCI st.1)) = [] := by
    rw [List.filterMap_eq_nil_iff]
    intro a ha
    rcases List.mem_append.mp ha with ha2 | ha2
    · obtain ⟨r, hr, rfl⟩ := List.mem_map.mp ha2
      exact lookupContactByEmailCI_eq_none
        (hrec r (List.mem_append.mpr (Or.inl hr)))
    · obtain ⟨r, hr, rfl⟩ := List.mem_map.mp ha2
      exact lookupContactByEmailCI_eq_none
        (hrec r (List.mem_append.mpr (Or.inr hr)))
  unfold EmailService.processEmail
  rw [dateFalsy_false hds hs, if_neg Bool.false_ne_true,
    isDupMessage_false hdup, if_neg Bool.false_ne_true]
  simp only [senderLookup_none hsend, hrecnil, Option.isSome_none,
    List.isEmpty_nil, Bool.not_true, Bool.or_false, Bool.not_false, if_true,
    hfo]

theorem processEmail_ok_filtered_none {ue : List String}
    {pd : String → Option Nat} {st : OrmDB × SaveCounts × Option Nat}
    {e : GmailEmail} {st2 : OrmDB × SaveCounts × Option Nat}
    (h : EmailService.processEmail ue pd st e = .ok st2) (hst : st.2.2 = none) :
    st2.2.2 = none := by
  obtain ⟨sdb, scounts, sfo⟩ := st
  have hfo : sfo = none := hst
  subst hfo
  unfold EmailService.processEmail at h
  repeat' split at h
  all_goals first
    | (injection h with h2; rw [← h2])
    | (simp at h; done)
    | (simp at h
       by_cases hc : senderLookup ue sdb (strLower e.from_email) = none ∧
          (∀ a ∈ e.to_emails, lookupContactByEmailCI sdb (strLower a) = none) ∧
          ∀ a ∈ e.cc_emails, lookupContactByEmailCI sdb (strLower a) = none <;>
        first
          | (rw [if_pos hc] at h; simp at h; done)
          | (rw [if_neg hc] at h; injection h with h2; rw [← h2]))
    | simp_all

theorem foldlM_processEmail_filtered_none (ue : List String)
    (pd : String → Option Nat) :
    ∀ (l : List GmailEmail) (st st2 : OrmDB × SaveCounts × Option Nat),
      l.foldlM (EmailService.processEmail ue pd) st = .ok st2 →
      st.2.2 = none → st2.2.2 = none := by
  intro l
  induction l with
  | nil =>
    intro st st2 h hst
    rw [List.foldlM_nil] at h
    injection h with h2
    rw [← h2]
    exact hst
  | cons a l ih =>
    intro st st2 h hst
    rw [List.foldlM_cons] at h
    cases hstep : EmailService.processEmail ue pd st a with
    | error err =>
      rw [hstep] at h
      have h2 : (Except.error err : Except PyErr (OrmDB × SaveCounts × Option Nat)) =
          .ok st2 := h
      exact Except.noConfusion h2
    | ok st1 =>
      rw [hstep] at h
      exact ih st1 st2 h (processEmail_ok_filtered_none hstep hst)

/-- Claim C9: a batch containing an email with a non-empty date, no
message-id duplicate, and a sender and recipients that all fail to resolve
makes `save_emails_to_db` raise the unhandled `UnboundLocalError` on the
never-initialized `filtered_out` counter; no counts dictionary is returned
and nothing processed earlier in the batch is committed. -/
theorem save_emails_to_db_unbound_local (user_emails : List String)
    (parseDate : String → Option Nat) (db : OrmDB)
    (pre : List GmailEmail) (e : GmailEmail) (rest : List GmailEmail)
    (st1 : OrmDB × SaveCounts × Option Nat)
    (hpre : pre.foldlM (EmailService.processEmail user_emails parseDate)
      ((db, ⟨0, 0, 0⟩, none) : OrmDB × SaveCounts × Option Nat) = .ok st1)
    (ht : SaveEmailsTrigger st1.1 e) :
    EmailService.save_emails_to_db user_emails parseDate db (pre ++ e :: rest) =
      .error (.unboundLocal "filtered_out") ∧
    EmailService.committedState db
      (EmailService.save_emails_to_db user_emails parseDate db (pre ++ e :: rest)) =
      (db, none) := by
  have hfo : st1.2.2 = none :=
    foldlM_processEmail_filtered_none user_emails parseDate pre _ st1 hpre rfl
  have herr : EmailService.save_emails_to_db user_emails parseDate db
      (pre ++ e :: rest) = .error (.unboundLocal "filtered_out") := by
    unfold EmailService.save_emails_to_db
    rw [List.foldlM_append, hpre]
    show ((e :: rest).foldlM (EmailService.processEmail user_emails parseDate)
        st1).map (fun st => (st.1, st.2.1)) = _
    rw [List.foldlM_cons,
      processEmail_trigger user_emails parseDate st1 e hfo ht]
    rfl
  refine ⟨herr, ?_⟩
  rw [herr]
  rfl

/-- Empty store and an email whose addresses resolve to nothing. -/
def c9_db : OrmDB := ⟨[], [], [], [], 1, 1⟩

/-- A dated, non-duplicate email from an unknown sender to nobody. -/
def c9_email : GmailEmail :=
  ⟨"S", "X <a@b>", "a@b", [], [], some "Mon, 1 Jan 2024 00:00:00 +0000",
    "body", none⟩

/-- Claim C9 (witness): the batch `[c9_email]` on the empty store raises
the `UnboundLocalError` and commits nothing. -/
theorem save_emails_to_db_unbound_local_witness :
    SaveEmailsTrigger c9_db c9_email ∧
    EmailService.save_emails_to_db [] (fun _ => none) c9_db [c9_email] =
      .error (.unboundLocal "filtered_out") := by
  have htrig : SaveEmailsTrigger c9_db c9_email := by
    refine ⟨⟨"Mon, 1 Jan 2024 00:00:00 +0000", rfl, by decide⟩, ?_, ?_, ?_⟩
    · intro mid h
      simp [c9_email] at h
    · intro m hm
      simp [c9_db] at hm
    · intro r hr
      simp [c9_email] at hr
  have h := save_emails_to_db_unbound_local [] (fun _ => none) c9_db []
    c9_email [] (c9_db, ⟨0, 0, 0⟩, none) (by rw [List.foldlM_nil]; rfl) htrig
  exact ⟨htrig, h.1⟩

end SmartCRM
